import Mathlib

/-!
Verification development for the MICARDO card driver (`card-mcrd.c`).

The driver emulates hierarchical file selection on a card that only supports
single-level selects, caches per-directory rule/key records, parses FCP
responses, and prepares the card security environment for signing.

We embed the driver shallowly: machine integers become `Nat` (status values
become `Int`, success `0`, errors negative), byte buffers become `List Nat`,
the card transport becomes an explicit oracle indexed by the number of
commands issued so far, and C `assert` failures of a debug build become a
distinguished return value.  All definitions are translated from the C
source; the two external collaborators that the source file calls but does
not define (`sc_asn1_find_tag` and `sc_check_sw`) are modelled from the
specification and marked as such.
-/

/-! ### Status values

The exact numeric values of the OpenSC error constants are immaterial to the
driver logic modelled here; what matters is that they are pairwise distinct
and nonzero (success is `0`). -/

def SC_ERROR_INVALID_ARGUMENTS : Int := -1300
def SC_ERROR_INTERNAL : Int := -1400
def SC_ERROR_FILE_NOT_FOUND : Int := -1201
def SC_ERROR_RECORD_NOT_FOUND : Int := -1202
def SC_ERROR_CARD_CMD_FAILED : Int := -1205

/-- Stands for a C `assert` firing in a debug build (the process aborts; we
surface it as a distinguished status so that runs remain total). -/
def ASSERT_FAILED : Int := -9990

/-- Model artifact: the C record-reading loop is unbounded (it stops when the
card reports that there are no more records); our embedding runs it on fuel
and returns this sentinel if the fuel runs out.  Theorems about the loop
either supply enough fuel or quantify over it. -/
def FUEL_EXHAUSTED : Int := -424242

/-! ### Driver constants (from the `#define`s and the `enum` in the source) -/

def MFID : Nat := 0x3F00
def EF_KeyD : Nat := 0x0013
def EF_Rule : Nat := 0x0030
def MAX_CURPATH : Nat := 10

def MCRD_SEL_MF : Nat := 0x00
def MCRD_SEL_DF : Nat := 0x01
def MCRD_SEL_EF : Nat := 0x02
def MCRD_SEL_AID : Nat := 0x04

/-! ### The external TLV scanner -/

/-- Modelled from the spec: the external TLV scanner
(`findTag(buffer, tag) -> valueSlice | NotFound`, the source calls it
`sc_asn1_find_tag`) walks a sequence of tag-length-value objects and returns
the value slice of the first object whose tag matches.  We model the
single-byte-tag, single-byte-length encoding, which covers every tag the
driver searches for (0x80..0x8B, 0x7B, 0xA1, 0xA5, 0x9x); a truncated value
is treated as not found.  The fuel argument only bounds the recursion and is
always sufficient because every step consumes at least two bytes. -/
def findTagAux (w : Nat) : Nat → List Nat → Option (List Nat)
  | 0, _ => none
  | _ + 1, [] => none
  | _ + 1, [_] => none
  | fuel + 1, t :: l :: rest =>
      if w = t then
        (if l ≤ rest.length then some (rest.take l) else none)
      else
        findTagAux w fuel (rest.drop l)

/-- Modelled from the spec: entry point of the external TLV scanner. -/
def findTag (w : Nat) (buf : List Nat) : Option (List Nat) :=
  findTagAux w buf.length buf

/-- Modelled from the spec: `sc_check_sw` maps a card status word to a result
value: `0x9000` is success, `0x6A82` is "file not found", `0x6A83` is
"record not found", and any other word is a generic command failure. -/
def sc_check_sw (sw1 sw2 : Nat) : Int :=
  if sw1 = 0x90 ∧ sw2 = 0x00 then 0
  else if sw1 = 0x6A ∧ sw2 = 0x82 then SC_ERROR_FILE_NOT_FOUND
  else if sw1 = 0x6A ∧ sw2 = 0x83 then SC_ERROR_RECORD_NOT_FOUND
  else SC_ERROR_CARD_CMD_FAILED

/-! ### Per-directory record cache (`rule_record_s` / `keyd_record_s` /
`df_info_s` from the source) -/

/-- One record of `EF_Rule` or `EF_KeyD`: its record number and raw payload
(`recno` and `data` of `rule_record_s` / `keyd_record_s`). -/
structure RecEntry where
  recno : Nat
  data : List Nat
  deriving DecidableEq, Repr

/-- The per-directory cache node `df_info_s`: the path from the root keying
the node, and the loaded record collections (the source stores them as
singly linked lists built by prepending, so the head is the record loaded
last, i.e. the highest record number). -/
structure DfInfo where
  path : List Nat
  rule_file : List RecEntry
  keyd_file : List RecEntry
  deriving DecidableEq, Repr

/-! ### Key-reference resolver (`get_se_num_from_keyd`) -/

/-- Translation of `get_se_num_from_keyd`.  The C function receives the
loaded `EF_KeyD` record list of the current directory (an empty list models
both a missing `df_info` and an unloaded `EF_KeyD`, each of which makes the
C function return `-1` immediately) and a caller-supplied 2-byte output
buffer `ref_data`, which we thread through explicitly as `buf`; the result
pairs the final buffer contents with the returned SE number (`-1` = error /
not found).  Per record: find tag `0x83`; require a 4-byte value whose last
two bytes are the big-endian target fid; on a match store the first two
bytes into the buffer, then look for a nonempty `0x7B` container holding a
1-byte `0x80` tag, whose byte is returned; in all other cases the loop
continues with the next record. -/
def get_se_num_from_keyd (keyd : List RecEntry) (fid : Nat) (buf : Nat × Nat) :
    (Nat × Nat) × Int :=
  match keyd with
  | [] => (buf, -1)
  | k :: rest =>
    match findTag 0x83 k.data with
    | some (a :: b :: c :: d :: tl) =>
      if tl = [] ∧ c = fid / 256 % 256 ∧ d = fid % 256 then
        let buf1 := (a, b)
        match findTag 0x7B k.data with
        | some sedo =>
          if sedo = [] then get_se_num_from_keyd rest fid buf1
          else
            match findTag 0x80 sedo with
            | some (s :: stl) =>
              if stl = [] then (buf1, (s : Int))
              else get_se_num_from_keyd rest fid buf1
            | _ => get_se_num_from_keyd rest fid buf1
        | none => get_se_num_from_keyd rest fid buf1
      else get_se_num_from_keyd rest fid buf
    | _ => get_se_num_from_keyd rest fid buf

/-! ### FCP parser (`process_fcp`) -/

/-- Structural file type recorded by `process_fcp` (`file->type`).
`sc_file_new` zero-initializes the file, which corresponds to none of the
three concrete types; the parser leaves the field untouched for
unrecognized selector values, so they surface as `unknown`. -/
inductive FileType
  | unknown
  | workingEF
  | internalEF
  | df
  deriving DecidableEq, Repr

/-- The fields of `struct sc_file` that `process_fcp` fills in.  Numeric
fields default to `0` (the file is calloc-ed by `sc_file_new`); optional
byte-string fields model "not set". -/
structure ScFile where
  id : Nat := 0
  size : Nat := 0
  ftype : FileType := FileType.unknown
  ef_structure : Nat := 0
  shareable : Bool := false
  name : Option (List Nat) := none
  prop_attr : Option (List Nat) := none
  sec_attr : Option (List Nat) := none
  deriving DecidableEq, Repr

/-- File identifier step of `process_fcp`: tag `0x83`, accepted only when the
value is exactly 2 bytes; `file->id = (tag[0] << 8) | tag[1]`. -/
def fcpId (buf : List Nat) (f : ScFile) : ScFile :=
  match findTag 0x83 buf with
  | some [a, b] => { f with id := a * 256 + b }
  | _ => f

/-- File size step of `process_fcp`, returning the updated file and the
`bad_fde` flag.  Tag `0x81` is preferred; when absent, tag `0x85` (the TCOS
file-descriptor extension) is tried and `bad_fde` records that it was
consumed; when both are absent, tag `0x80` is tried.  In each case the value
must be at least 2 bytes and the size is its first two bytes big-endian. -/
def fcpSize (buf : List Nat) (f : ScFile) : ScFile × Bool :=
  match findTag 0x81 buf with
  | some (a :: b :: _) => ({ f with size := a * 256 + b }, false)
  | some _ => (f, false)
  | none =>
    match findTag 0x85 buf with
    | some (a :: b :: _) => ({ f with size := a * 256 + b }, true)
    | some _ => (f, true)
    | none =>
      match findTag 0x80 buf with
      | some (a :: b :: _) => ({ f with size := a * 256 + b }, false)
      | _ => (f, false)

/-- File descriptor byte step of `process_fcp`: tag `0x82`, first byte only.
Bit `0x40` is the shareable flag, the low three bits are the EF structure
code, and bits 3..5 select the type (`0` working EF, `1` internal EF, `7`
DF, anything else leaves `file->type` untouched). -/
def fcpDesc (buf : List Nat) (f : ScFile) : ScFile :=
  match findTag 0x82 buf with
  | some (byte :: _) =>
    let selector := (byte >>> 3) &&& 7
    { f with
      shareable := byte &&& 0x40 != 0
      ef_structure := byte &&& 0x07
      ftype :=
        if selector = 0 then FileType.workingEF
        else if selector = 1 then FileType.internalEF
        else if selector = 7 then FileType.df
        else f.ftype }
  | _ => f

/-- DF name step of `process_fcp`: tag `0x84`, accepted when 1..16 bytes
(the printable-character substitution in the source only affects the debug
string, not the stored name). -/
def fcpName (buf : List Nat) (f : ScFile) : ScFile :=
  match findTag 0x84 buf with
  | some t => if t.length ≥ 1 ∧ t.length ≤ 16 then { f with name := some t } else f
  | none => f

/-- Proprietary attribute steps of `process_fcp`: tag `0x85` unless it was
already consumed as the size fallback (`bad_fde`), in which case (or when
absent/empty) the attribute is cleared; then a nonempty constructed tag
`0xA5` overrides. -/
def fcpProp (buf : List Nat) (bad_fde : Bool) (f : ScFile) : ScFile :=
  let f1 :=
    match (if bad_fde then none else findTag 0x85 buf) with
    | some (a :: tl) => { f with prop_attr := some (a :: tl) }
    | _ => { f with prop_attr := none }
  match findTag 0xA5 buf with
  | some (a :: tl) => { f1 with prop_attr := some (a :: tl) }
  | _ => f1

/-- Coarse security attribute step of `process_fcp`: a nonempty tag `0x86`
is stored verbatim; otherwise the field is left untouched. -/
def fcpSec (buf : List Nat) (f : ScFile) : ScFile :=
  match findTag 0x86 buf with
  | some (a :: tl) => { f with sec_attr := some (a :: tl) }
  | _ => f

/-- Translation of `process_fcp`.  The final step of the source looks up the
access-rule reference (tag `0x8B`, or `0x8B` nested in `0xA1`) and passes it
to `process_arr`; `process_arr` only produces debug output and attaches
nothing to the file, so that step is the identity on the file value and is
omitted here. -/
def process_fcp (buf : List Nat) : ScFile :=
  let f1 := fcpId buf {}
  let sz := fcpSize buf f1
  let f3 := fcpDesc buf sz.1
  let f4 := fcpName buf f3
  let f5 := fcpProp buf sz.2 f4
  fcpSec buf f5

/-! ### Session state and transport oracle -/

/-- One command issued to the card, as observable at the transport:
a single-level select (`do_select`, with the kind byte actually sent after
`select_part` forces `MCRD_SEL_MF` for the root identifier), an AID select,
or a read-record command (`0xB2`). -/
inductive CardOp
  | sel (kind fid : Nat)
  | selAid
  | readRec (recno : Nat)
  deriving DecidableEq, Repr

/-- The card's answer to a read-record command: the result of
`sc_transmit_apdu` (`0` = transmitted), the status word, and the response
bytes (`apdu.resplen` bytes of `apdu.resp`). -/
structure RecResp where
  xmit : Int
  sw1 : Nat
  sw2 : Nat
  data : List Nat
  deriving DecidableEq, Repr

/-- The external transport, indexed by the number of commands the driver has
issued so far in the session.  `sel i kind fid` is the combined
transmit-and-check-status result of the `i`-th command when it is a select
(`0` = success, nonzero = the error the driver sees); `readR i recno` is the
card's answer when it is a read-record command. -/
structure Oracle where
  sel : Nat → Nat → Nat → Int
  readR : Nat → Nat → RecResp

/-- The driver's session state `mcrd_priv_data`: the selected-path cache
(`curpath`/`curpathlen`), the data-file flag `is_ef`, and the `df_infos`
list; plus the instrumentation our embedding adds: the count `n` of
commands issued so far and the list of issued commands. -/
structure St where
  curpath : List Nat
  is_ef : Bool
  dfis : List DfInfo
  n : Nat
  trace : List CardOp
  deriving DecidableEq, Repr

/-- The kind `select_part` actually sends: the MF kind is forced for the
root identifier (`if (fid == MFID) kind = MCRD_SEL_MF;`). -/
def forcedKind (kind fid : Nat) : Nat :=
  if fid = MFID then MCRD_SEL_MF else kind

/-- Translation of `select_part`: force the MF kind for the root identifier,
then issue one select command.  (The response parsing of `do_select` and the
returned FCI are absorbed into the oracle, which directly supplies the
driver-visible status.) -/
def select_part (o : Oracle) (kind fid : Nat) (st : St) : Int × St :=
  (o.sel st.n (forcedKind kind fid) fid,
   { st with n := st.n + 1,
             trace := st.trace ++ [CardOp.sel (forcedKind kind fid) fid] })

/-! ### Directory metadata store (`get_df_info`, `clear_special_files`,
`load_special_files`) -/

def findDf (dfis : List DfInfo) (key : List Nat) : Option DfInfo :=
  dfis.find? (fun d => d.path = key)

/-- The `df_info_s` node for `key`; total-function view of a pointer that is
only dereferenced after `get_df_info` guaranteed the node exists. -/
def lookupDf (dfis : List DfInfo) (key : List Nat) : DfInfo :=
  (findDf dfis key).getD { path := key, rule_file := [], keyd_file := [] }

/-- In-place update of the (unique) `df_info_s` node for `key`; the source
builds the list by prepending a node only when no node with that path
exists, so at most one node matches. -/
def updateDf (st : St) (key : List Nat) (f : DfInfo → DfInfo) : St :=
  { st with dfis := st.dfis.map (fun d => if d.path = key then f d else d) }

/-- Translation of `get_df_info`: no node can be found without a current
path; otherwise the node keyed by the exact current path is found or a
fresh empty node is prepended.  We return the key (the current path) rather
than the node, since later updates go through `updateDf`. -/
def get_df_info (st : St) : Option (List Nat) × St :=
  if st.curpath.length = 0 then (none, st)
  else
    match findDf st.dfis st.curpath with
    | some _ => (some st.curpath, st)
    | none =>
      (some st.curpath,
       { st with dfis := { path := st.curpath, rule_file := [], keyd_file := [] } :: st.dfis })

/-- Translation of `clear_special_files`: drop both record lists of a node. -/
def clear_special_files (d : DfInfo) : DfInfo :=
  { d with rule_file := [], keyd_file := [] }

/-- Prepend a freshly read record to the node's rule or key list, as the
loader loops do (`rule->next = dfi->rule_file; dfi->rule_file = rule;`). -/
def storeRec (isRule : Bool) (e : RecEntry) (d : DfInfo) : DfInfo :=
  if isRule then { d with rule_file := e :: d.rule_file }
  else { d with keyd_file := e :: d.keyd_file }

/-- Instrumentation bookkeeping for one read-record command. -/
def logRec (st : St) (recno : Nat) : St :=
  { st with n := st.n + 1, trace := st.trace ++ [CardOp.readRec recno] }

/-- Translation of the record-reading loops of `load_special_files` (both
loops are verbatim identical up to the list the record is stored in).
Starting at record number `recno` (the source starts at 1), issue one
read-record command per number: a transmit failure is propagated, status
`0x6A83` ends the scan normally (`none`), a status other than `0x9000` /
`0x6282` aborts with the mapped error, and otherwise the record is stored
in the node for `key` and the loop continues.  The loop is bounded by
`fuel` only to stay total; the source loops until the card ends the scan. -/
def readLoop (o : Oracle) (key : List Nat) (isRule : Bool) :
    Nat → Nat → St → Option Int × St
  | 0, _, st => (some FUEL_EXHAUSTED, st)
  | fuel + 1, recno, st =>
    let resp := o.readR st.n recno
    let st1 := logRec st recno
    if resp.xmit ≠ 0 then (some resp.xmit, st1)
    else if resp.sw1 = 0x6A ∧ resp.sw2 = 0x83 then (none, st1)
    else if ¬((resp.sw1 = 0x90 ∧ resp.sw2 = 0x00) ∨ (resp.sw1 = 0x62 ∧ resp.sw2 = 0x82)) then
      (some (sc_check_sw resp.sw1 resp.sw2), st1)
    else
      readLoop o key isRule fuel (recno + 1)
        (updateDf st1 key (storeRec isRule { recno := recno, data := resp.data }))

/-- Translation of `load_special_files`.  The entry `assert (!priv->is_ef)`
is modelled as a distinguished result.  A node whose `rule_file` list is
nonempty counts as cached and is returned as-is.  Otherwise the node is
cleared and `EF_Rule` is selected (bypassing the path cache) and read; then
`EF_KeyD` is selected, tolerating `SC_ERROR_FILE_NOT_FOUND` as success with
no key records, and read.  The `none` branch of `get_df_info` is unreachable
from the driver's call sites (they all guarantee a nonempty current path);
in the source it would fault when storing the first record. -/
def load_special_files (o : Oracle) (fuel : Nat) (st : St) : Int × St :=
  if st.is_ef then (ASSERT_FAILED, st)
  else
    match get_df_info st with
    | (none, st1) => (SC_ERROR_INTERNAL, st1)
    | (some key, st1) =>
      if (lookupDf st1.dfis key).rule_file ≠ [] then (0, st1)
      else
        let st2 := updateDf st1 key clear_special_files
        let res := select_part o MCRD_SEL_EF EF_Rule st2
        if res.1 ≠ 0 then (res.1, res.2)
        else
          match readLoop o key true fuel 1 res.2 with
          | (some e, st4) => (e, st4)
          | (none, st4) =>
            let res2 := select_part o MCRD_SEL_EF EF_KeyD st4
            if res2.1 = SC_ERROR_FILE_NOT_FOUND then (0, res2.2)
            else if res2.1 ≠ 0 then (res2.1, res2.2)
            else
              match readLoop o key false fuel 1 res2.2 with
              | (some e, st6) => (e, st6)
              | (none, st6) => (0, st6)

/-! ### Descent (`select_down`) and the two selection handlers -/

/-- Translation of the `for (; pathlen; pathlen--, pathptr++)` loop of
`select_down`.  `ptr` models the C pointer into the caller's fid array
(`ptr (off + i)` is `pathptr[i]`).  Per component: a full cache is a fatal
internal error before anything is sent; on the final component (unless
`df_only`) an EF select is attempted first and its success ends the loop
with the found-EF flag; otherwise (or after an EF failure) a DF select is
attempted, a failure is propagated as-is, and a success appends the
component to the cache before the loop continues.  The returned Bool is
`found_ef`. -/
def sdLoop (o : Oracle) (ptr : Nat → Nat) (dfo fci : Bool) :
    Nat → Nat → St → Int × St × Bool
  | _, 0, st => (0, st, false)
  | off, len + 1, st =>
    if st.curpath.length = MAX_CURPATH then (SC_ERROR_INTERNAL, st, false)
    else
      let fid := ptr off
      let r1st :=
        if len = 0 ∧ dfo = false then select_part o MCRD_SEL_EF fid st
        else ((-1 : Int), st)
      if r1st.1 = 0 then
        (0, { r1st.2 with curpath := r1st.2.curpath ++ [fid] }, true)
      else
        let r2st := select_part o MCRD_SEL_DF fid r1st.2
        if r2st.1 ≠ 0 then (r2st.1, r2st.2, false)
        else
          sdLoop o ptr dfo fci (off + 1) len
            { r2st.2 with curpath := r2st.2.curpath ++ [fid] }

/-- Translation of `select_down`: an empty path is an invalid argument; on
loop success `is_ef` records whether the final selection was an EF and, when
it was not, the new directory's metadata is loaded (the loader's result is
discarded by the source).  `fci` mirrors the `file` out-parameter of the
source (whether the caller wants the FCI); it does not influence the state
or the command sequence. -/
def select_down (o : Oracle) (fuel : Nat) (ptr : Nat → Nat) (off len : Nat)
    (dfo fci : Bool) (st : St) : Int × St :=
  if len = 0 then (SC_ERROR_INVALID_ARGUMENTS, st)
  else
    let r := sdLoop o ptr dfo fci off len st
    if r.1 ≠ 0 then (r.1, r.2.1)
    else
      let st2 := { r.2.1 with is_ef := r.2.2 }
      if r.2.2 then (0, st2) else (0, (load_special_files o fuel st2).2)

/-- Translation of the shared "relative addressing without a current path"
block of `select_file_by_path` / `select_file_by_fid`: select the first
requested identifier with the MF kind; on success seed the cache with it. -/
def relEnsure (o : Oracle) (fid0 : Nat) (st : St) : Int × St :=
  let res := select_part o MCRD_SEL_MF fid0 st
  if res.1 ≠ 0 then (res.1, res.2)
  else (0, { res.2 with curpath := [fid0], is_ef := false })

/-- Translation of the shared tail of the two relative-addressing branches:
`if (priv->is_ef) { assert (priv->curpathlen > 1); priv->curpathlen--;
priv->is_ef = 0; }` followed by `select_down`. -/
def relDescend (o : Oracle) (fuel : Nat) (ptr : Nat → Nat) (len : Nat)
    (fci : Bool) (st : St) : Int × St :=
  if st.is_ef then
    if st.curpath.length ≤ 1 then (ASSERT_FAILED, st)
    else
      select_down o fuel ptr 0 len false fci
        { st with curpath := st.curpath.dropLast, is_ef := false }
  else select_down o fuel ptr 0 len false fci st

/-- The common-prefix scan of `select_file_by_path`:
`for (i=0; i < pathlen && i < curpathlen && pathptr[i] == curpath[i]; i++)`. -/
def commonLen : List Nat → List Nat → Nat
  | a :: as_, b :: bs => if a = b then commonLen as_ bs + 1 else 0
  | _, _ => 0

/-- Translation of `select_file_by_path`.  `p0` is the request (an array of
fids, as converted by `mcrd_select_file`), `fci` whether the caller wants
the FCI.  The entry `assert` and the `assert (priv->curpathlen > 1)` of the
re-select branch are modelled as the distinguished status.  Branches, in
source order: strip a leading `0x3FFF`; length check; root request; absolute
request (cache empty / target a strict ancestor / exactly cached / diverging
or extending); relative request. -/
def select_file_by_path (o : Oracle) (fuel : Nat) (p0 : List Nat) (fci : Bool)
    (st : St) : Int × St :=
  if ¬(st.curpath = [] ∨ st.curpath.head? = some MFID) then (ASSERT_FAILED, st)
  else
    let p := if p0.head? = some 0x3FFF then p0.tail else p0
    if p.length = 0 ∨ MAX_CURPATH ≤ p.length then (SC_ERROR_INVALID_ARGUMENTS, st)
    else if p.length = 1 ∧ p.head? = some MFID then
      let res := select_part o MCRD_SEL_MF MFID { st with curpath := [] }
      if res.1 ≠ 0 then (res.1, res.2)
      else (0, { res.2 with curpath := [MFID], is_ef := false })
    else if 1 < p.length ∧ p.head? = some MFID then
      let i := commonLen p st.curpath
      if st.curpath.length = 0 then
        select_down o fuel (fun j => p.getD j 0) 0 p.length false fci
          { st with curpath := [], is_ef := false }
      else if i = p.length ∧ i < st.curpath.length then
        select_down o fuel (fun j => p.getD j 0) 0 p.length true fci
          { st with curpath := [], is_ef := false }
      else if i = p.length ∧ i = st.curpath.length then
        if ¬fci then (0, st)
        else if st.curpath.length ≤ 1 then (ASSERT_FAILED, st)
        else
          select_down o fuel (fun j => p.getD (p.length - 1 + j) 0) 0 1 false fci
            { st with curpath := st.curpath.dropLast, is_ef := false }
      else
        select_down o fuel (fun j => p.getD j 0) 0 p.length false fci
          { st with curpath := [], is_ef := false }
    else
      if st.curpath.length = 0 then
        let e := relEnsure o (p.getD 0 0) st
        if e.1 ≠ 0 then e
        else relDescend o fuel (fun j => p.getD j 0) p.length fci e.2
      else relDescend o fuel (fun j => p.getD j 0) p.length fci st

/-- Translation of `select_file_by_fid`.  `raw` is the converted request and
`junk` models the contents of the uninitialized slots of the `pathtmp` stack
array of `mcrd_select_file` beyond `raw.length`: with an empty request the
source still dereferences `pathptr[0]`, which is exactly such a slot.
Branches, in source order: entry assert; more than one fid is invalid; a
single `0x3FFF` is a no-op; an empty request re-selects "the current file"
(pop one level, then descend one level into `pathptr[0]`); the root request
clears the cache and selects the MF; otherwise relative addressing. -/
def select_file_by_fid (o : Oracle) (fuel : Nat) (raw : List Nat) (junk : Nat)
    (fci : Bool) (st : St) : Int × St :=
  if ¬(st.curpath = [] ∨ st.curpath.head? = some MFID) then (ASSERT_FAILED, st)
  else if 1 < raw.length then (SC_ERROR_INVALID_ARGUMENTS, st)
  else if raw.length = 1 ∧ raw.head? = some 0x3FFF then (0, st)
  else if raw.length = 0 then
    if ¬fci then (0, st)
    else if st.curpath.length = 0 then (SC_ERROR_INTERNAL, st)
    else if st.curpath.length ≤ 1 then (ASSERT_FAILED, st)
    else
      select_down o fuel (fun _ => junk) 0 1 false fci
        { st with curpath := st.curpath.dropLast, is_ef := false }
  else if raw.head? = some MFID then
    let res := select_part o MCRD_SEL_MF MFID { st with curpath := [] }
    if res.1 ≠ 0 then (res.1, res.2)
    else (0, { res.2 with curpath := [MFID], is_ef := false })
  else
    if st.curpath.length = 0 then
      let e := relEnsure o (raw.getD 0 junk) st
      if e.1 ≠ 0 then e
      else relDescend o fuel (fun j => raw.getD j junk) 1 fci e.2
    else relDescend o fuel (fun j => raw.getD j junk) 1 fci st

/-! ### Session-level operations -/

/-- One call to the driver's select handler `mcrd_select_file`, by addressing
mode: a path request, a file-id request (with the uninitialized-slot word of
the conversion buffer made explicit), or a DF-name (AID) request, which the
source forwards to `do_select` and then unconditionally clears the path
cache. -/
inductive Req
  | byPath (p : List Nat) (fci : Bool)
  | byFid (raw : List Nat) (junk : Nat) (fci : Bool)
  | byName (fci : Bool)

/-- Dispatch of `mcrd_select_file` on the request type. -/
def doReq (o : Oracle) (fuel : Nat) (st : St) : Req → Int × St
  | Req.byPath p fci => select_file_by_path o fuel p fci st
  | Req.byFid raw junk fci => select_file_by_fid o fuel raw junk fci st
  | Req.byName _ =>
    let r := o.sel st.n MCRD_SEL_AID 0
    (r, { st with n := st.n + 1, trace := st.trace ++ [CardOp.selAid], curpath := [] })

/-- Translation of the session initialisation in `mcrd_init`: the cache is
seeded with the root identifier and the root directory's metadata is loaded
eagerly (the loader's result is discarded by the source). -/
def initSt (o : Oracle) (fuel : Nat) : St :=
  (load_special_files o fuel
    { curpath := [MFID], is_ef := false, dfis := [], n := 0, trace := [] }).2

/-- A session: a sequence of select requests applied in order. -/
def run (o : Oracle) (fuel : Nat) : List Req → St → St
  | [], st => st
  | r :: rs, st => run o fuel rs (doReq o fuel st r).2

/-- Translation of `mcrd_finish` for a live (non-null) card handle.  The
guard of the source reads `if (card) return 0;`, so for every valid handle
the function returns immediately and the cleanup loop below it (which walks
`priv->df_infos`, calls `clear_special_files` on each node and frees the
private data) is never reached; the session state survives teardown
unchanged.  (For a null handle the source would dereference null before
reaching the loop, so the loop is unreachable on every path.) -/
def mcrd_finish (priv : St) : Int × St := (0, priv)

/-! ### Security environment setup (`mcrd_set_security_env`) -/

/-- Crypto operation kinds relevant to `mcrd_set_security_env`
(`env->operation`); `other` stands for any unsupported kind. -/
inductive SecOp
  | sign
  | decipher
  | other
  deriving DecidableEq, Repr

/-- The fields of `sc_security_env` the function reads: the operation, the
`SC_SEC_ENV_FILE_REF_PRESENT` flag, and the file reference bytes. -/
structure SecEnv where
  operation : SecOp
  fileRefPresent : Bool
  fileRef : List Nat
  deriving DecidableEq, Repr

/-- The `switch (env->operation)` of the source: the `p1`/`p2` pair of the
MSE command, or nothing for an unsupported operation. -/
def secOpParams : SecOp → Option (Nat × Nat)
  | SecOp.sign => some (0x41, 0xB6)
  | SecOp.decipher => some (0x41, 0xB8)
  | SecOp.other => none

/-- A command issued by `mcrd_set_security_env`: a restore-SE command
(`restore_se`, ins `0x22` p1 `0xF3`) or the MSE set command with its data
bytes. -/
inductive SeCmd
  | restore (se : Int)
  | setEnv (p1 p2 : Nat) (data : List Nat)
  deriving DecidableEq, Repr

/-- Translation of `mcrd_set_security_env`, returning the driver result and
the list of commands transmitted.  `restoreStatus` / `setStatus` are the
combined transmit-and-check-status outcomes the transport would give the
two possible commands.  Control flow of the source: a nonzero `se_num`
argument is an invalid argument; an unsupported operation is an invalid
argument; a missing file reference or one shorter than 2 bytes is an
invalid argument (all three before any command is sent).  Otherwise the fid
is the last two bytes of the file reference and `get_se_num_from_keyd` is
consulted (writing the reference bytes into `sbuf+3` even when it fails);
when it returns an SE number, a nonzero number first issues `restore_se`,
and the reference bytes become part of the command data; when it returns
`-1` the command data stays at the bare 3-byte template `83 03 80` and the
MSE set command is transmitted anyway.  (The `sc_lock` block of the source
is dead code: it is guarded by `se_num > 0`, which already returned.) -/
def mcrd_set_security_env (keyd : List RecEntry) (env : SecEnv) (se_num : Int)
    (restoreStatus setStatus : Int) : Int × List SeCmd :=
  if se_num ≠ 0 then (SC_ERROR_INVALID_ARGUMENTS, [])
  else
    match secOpParams env.operation with
    | none => (SC_ERROR_INVALID_ARGUMENTS, [])
    | some (p1, p2) =>
      if env.fileRefPresent ∧ 1 < env.fileRef.length then
        let fid := env.fileRef.getD (env.fileRef.length - 2) 0 * 256 +
                   env.fileRef.getD (env.fileRef.length - 1) 0
        let res := get_se_num_from_keyd keyd fid (0, 0)
        let num := res.2
        if num ≠ -1 ∧ num ≠ 0 ∧ restoreStatus ≠ 0 then
          (restoreStatus, [SeCmd.restore num])
        else
          let pre : List SeCmd := if num ≠ -1 ∧ num ≠ 0 then [SeCmd.restore num] else []
          let data := [0x83, 0x03, 0x80] ++ (if num ≠ -1 then [res.1.1, res.1.2] else [])
          if setStatus ≠ 0 then (setStatus, pre ++ [SeCmd.setEnv p1 p2 data])
          else (0, pre ++ [SeCmd.setEnv p1 p2 data])
      else (SC_ERROR_INVALID_ARGUMENTS, [])

/-! ### The SelectionPathCache invariant (C4) -/

/-- The cache invariant stated by the spec and asserted by the source at the
entry of both selection handlers (`assert (!priv->curpathlen ||
priv->curpath[0] == MFID)`), plus the depth bound enforced by
`select_down`: a nonempty cache starts at the root identifier, and the
cache never exceeds the maximum depth. -/
def cacheInv (st : St) : Prop :=
  (st.curpath = [] ∨ st.curpath.head? = some MFID) ∧
  st.curpath.length ≤ MAX_CURPATH

/-- Transport assumption under which the root-first half of the invariant
is preserved: a select sent with the master-file kind succeeds only for the
root identifier.  (Both relative-addressing branches seed `curpath[0]` with
the first requested identifier whenever their MF-kind select succeeds, so
without this assumption a successful MF-kind select of a non-root
identifier plants it at the cache root.) -/
def mfSelExact (o : Oracle) : Prop :=
  ∀ n fid, o.sel n MCRD_SEL_MF fid = 0 → fid = MFID

/-! ## Basic facts used by several theorems -/

theorem select_part_snd (o : Oracle) (kind fid : Nat) (st : St) :
    (select_part o kind fid st).2
      = { st with n := st.n + 1,
                  trace := st.trace ++ [CardOp.sel (forcedKind kind fid) fid] } := rfl

theorem select_part_fst (o : Oracle) (kind fid : Nat) (st : St) :
    (select_part o kind fid st).1 = o.sel st.n (forcedKind kind fid) fid := rfl

theorem select_part_curpath (o : Oracle) (kind fid : Nat) (st : St) :
    (select_part o kind fid st).2.curpath = st.curpath := rfl

theorem select_part_is_ef (o : Oracle) (kind fid : Nat) (st : St) :
    (select_part o kind fid st).2.is_ef = st.is_ef := rfl

theorem select_part_dfis (o : Oracle) (kind fid : Nat) (st : St) :
    (select_part o kind fid st).2.dfis = st.dfis := rfl

theorem get_df_info_curpath (st : St) :
    (get_df_info st).2.curpath = st.curpath := by
  unfold get_df_info
  split
  · rfl
  · split <;> rfl

theorem get_df_info_is_ef (st : St) :
    (get_df_info st).2.is_ef = st.is_ef := by
  unfold get_df_info
  split
  · rfl
  · split <;> rfl

theorem updateDf_curpath (st : St) (key : List Nat) (f : DfInfo → DfInfo) :
    (updateDf st key f).curpath = st.curpath := rfl

theorem updateDf_is_ef (st : St) (key : List Nat) (f : DfInfo → DfInfo) :
    (updateDf st key f).is_ef = st.is_ef := rfl

theorem logRec_curpath (st : St) (recno : Nat) :
    (logRec st recno).curpath = st.curpath := rfl

theorem readLoop_curpath (o : Oracle) (key : List Nat) (isRule : Bool) :
    ∀ fuel recno (st : St),
      (readLoop o key isRule fuel recno st).2.curpath = st.curpath := by
  intro fuel
  induction fuel with
  | zero => intro recno st; rfl
  | succ m ih =>
    intro recno st
    unfold readLoop
    dsimp only
    split
    · rfl
    · split
      · rfl
      · split
        · rfl
        · exact ih (recno + 1) _

theorem readLoop_is_ef (o : Oracle) (key : List Nat) (isRule : Bool) :
    ∀ fuel recno (st : St),
      (readLoop o key isRule fuel recno st).2.is_ef = st.is_ef := by
  intro fuel
  induction fuel with
  | zero => intro recno st; rfl
  | succ m ih =>
    intro recno st
    unfold readLoop
    dsimp only
    split
    · rfl
    · split
      · rfl
      · split
        · rfl
        · exact ih (recno + 1) _

theorem load_special_files_curpath (o : Oracle) (fuel : Nat) (st : St) :
    (load_special_files o fuel st).2.curpath = st.curpath := by
  unfold load_special_files
  split
  · rfl
  · split
    next h =>
      have h0 := congrArg (fun x => x.2.curpath) h
      simpa [get_df_info_curpath] using h0.symm
    next key st1 h =>
      have h1 : st1.curpath = st.curpath := by
        have h0 := congrArg (fun x => x.2.curpath) h
        simpa [get_df_info_curpath] using h0.symm
      try dsimp only
      split
      · exact h1
      · split
        · simp [select_part_curpath, updateDf_curpath, h1]
        · split
          next e st4 hrl =>
            have h0 := congrArg (fun x => x.2.curpath) hrl
            simpa [readLoop_curpath, select_part_curpath, updateDf_curpath, h1]
              using h0.symm
          next st4 hrl =>
            have h4 : st4.curpath = st.curpath := by
              have h0 := congrArg (fun x => x.2.curpath) hrl
              simpa [readLoop_curpath, select_part_curpath, updateDf_curpath, h1]
                using h0.symm
            try dsimp only
            split
            · simpa [select_part_curpath] using h4
            · split
              · simpa [select_part_curpath] using h4
              · split
                next e st6 hrl2 =>
                  have h0 := congrArg (fun x => x.2.curpath) hrl2
                  simpa [readLoop_curpath, select_part_curpath, h4] using h0.symm
                next st6 hrl2 =>
                  have h0 := congrArg (fun x => x.2.curpath) hrl2
                  simpa [readLoop_curpath, select_part_curpath, h4] using h0.symm

theorem load_special_files_is_ef (o : Oracle) (fuel : Nat) (st : St) :
    (load_special_files o fuel st).2.is_ef = st.is_ef := by
  unfold load_special_files
  split
  · rfl
  · split
    next h =>
      have h0 := congrArg (fun x => x.2.is_ef) h
      simpa [get_df_info_is_ef] using h0.symm
    next key st1 h =>
      have h1 : st1.is_ef = st.is_ef := by
        have h0 := congrArg (fun x => x.2.is_ef) h
        simpa [get_df_info_is_ef] using h0.symm
      try dsimp only
      split
      · exact h1
      · split
        · simp [select_part_is_ef, updateDf_is_ef, h1]
        · split
          next e st4 hrl =>
            have h0 := congrArg (fun x => x.2.is_ef) hrl
            simpa [readLoop_is_ef, select_part_is_ef, updateDf_is_ef, h1]
              using h0.symm
          next st4 hrl =>
            have h4 : st4.is_ef = st.is_ef := by
              have h0 := congrArg (fun x => x.2.is_ef) hrl
              simpa [readLoop_is_ef, select_part_is_ef, updateDf_is_ef, h1]
                using h0.symm
            try dsimp only
            split
            · simpa [select_part_is_ef] using h4
            · split
              · simpa [select_part_is_ef] using h4
              · split
                next e st6 hrl2 =>
                  have h0 := congrArg (fun x => x.2.is_ef) hrl2
                  simpa [readLoop_is_ef, select_part_is_ef, h4] using h0.symm
                next st6 hrl2 =>
                  have h0 := congrArg (fun x => x.2.is_ef) hrl2
                  simpa [readLoop_is_ef, select_part_is_ef, h4] using h0.symm

/-! ## C1: key-reference resolution when the SE container is absent -/

/-- C1 counterexample.  A key directory with a single record whose 4-byte
tag `0x83` matches the target identifier `0x4101` but which contains no
`0x7B` container: the claim says the resolver returns the reference bytes
with security-environment number 0 (success); the code instead keeps
scanning and ends with the not-found result `-1` (while it did store the
reference bytes `(1, 2)`). -/
theorem keyref_missing_sedo_cex :
    get_se_num_from_keyd
        [{ recno := 1, data := [0x83, 0x04, 0x01, 0x02, 0x41, 0x01] }]
        0x4101 (0, 0)
      = ((0x01, 0x02), -1) ∧ (-1 : Int) ≠ 0 := by
  decide

/-- C1 (amended): when a record's 4-byte tag `0x83` matches the target
identifier, the first two bytes are stored as the reference data; but when
that record has no `0x7B` container the scan simply continues with the
remaining records (carrying the stored reference bytes), and an exhausted
scan returns the not-found result `-1` — absence of the container does not
default the security-environment number to 0.  When the matching record
does hold a `0x7B` container with a 1-byte `0x80` tag, that byte is
returned together with the reference bytes. -/
theorem keyref_resolution_amended :
    (∀ (k : RecEntry) (rest : List RecEntry) (fid : Nat) (buf : Nat × Nat) (a b : Nat),
       findTag 0x83 k.data = some [a, b, fid / 256 % 256, fid % 256] →
       findTag 0x7B k.data = none →
       get_se_num_from_keyd (k :: rest) fid buf
         = get_se_num_from_keyd rest fid (a, b)) ∧
    (∀ (k : RecEntry) (rest : List RecEntry) (fid : Nat) (buf : Nat × Nat)
       (a b s : Nat) (sedo : List Nat),
       findTag 0x83 k.data = some [a, b, fid / 256 % 256, fid % 256] →
       findTag 0x7B k.data = some sedo →
       findTag 0x80 sedo = some [s] →
       get_se_num_from_keyd (k :: rest) fid buf = ((a, b), (s : Int))) ∧
    (∀ (fid : Nat) (buf : Nat × Nat),
       get_se_num_from_keyd [] fid buf = (buf, -1)) := by
  refine ⟨?_, ?_, ?_⟩
  · intro k rest fid buf a b h83 h7b
    rw [get_se_num_from_keyd.eq_def]
    dsimp only
    rw [h83, h7b]
    dsimp only
    rw [if_pos ⟨rfl, rfl, rfl⟩]
  · intro k rest fid buf a b s sedo h83 h7b h80
    rcases sedo with _ | ⟨x, xs⟩
    · exact absurd h80 (by simp [findTag, findTagAux])
    · rw [get_se_num_from_keyd.eq_def]
      dsimp only
      rw [h83, h7b]
      dsimp only
      rw [if_pos ⟨rfl, rfl, rfl⟩, if_neg (by simp), h80]
      dsimp only
      rw [if_pos rfl]
  · intro fid buf
    rfl

/-- C1 witness: instantiates the three parts of the amended statement on
concrete records for target identifier `0x4101`. -/
theorem keyref_resolution_amended_witness :
    (get_se_num_from_keyd
        [{ recno := 1, data := [0x83, 0x04, 0x01, 0x02, 0x41, 0x01] },
         { recno := 2, data := [] }] 0x4101 (0, 0)
      = get_se_num_from_keyd [{ recno := 2, data := [] }] 0x4101 (0x01, 0x02)) ∧
    (get_se_num_from_keyd
        [{ recno := 3,
           data := [0x83, 0x04, 0x01, 0x02, 0x41, 0x01, 0x7B, 0x03, 0x80, 0x01, 0x05] }]
        0x4101 (0, 0)
      = ((0x01, 0x02), (5 : Int))) ∧
    (get_se_num_from_keyd [] 0x4101 (7, 8) = ((7, 8), -1)) := by
  refine ⟨?_, ?_, ?_⟩
  · exact keyref_resolution_amended.1 _ _ 0x4101 (0, 0) 0x01 0x02 (by decide) (by decide)
  · exact keyref_resolution_amended.2.1 _ [] 0x4101 (0, 0) 0x01 0x02 0x05
      [0x80, 0x01, 0x05] (by decide) (by decide) (by decide)
  · exact keyref_resolution_amended.2.2 0x4101 (7, 8)

/-! ## C10: reference bytes are written even on a not-found result -/

/-- C10: as soon as a scanned record's 4-byte tag `0x83` matches the target
identifier the reference bytes are stored in the caller's buffer, even when
that record lacks the `0x7B` security-environment container and the whole
scan therefore ends in the not-found result `-1`: the function returns the
written buffer `(0x0A, 0x0B)` rather than the initial contents `(0, 0)`. -/
theorem keyref_refdata_written_on_notfound :
    get_se_num_from_keyd
        [{ recno := 1, data := [0x83, 0x04, 0x0A, 0x0B, 0x51, 0x02] }]
        0x5102 (0, 0)
      = ((0x0A, 0x0B), -1) ∧ ((0x0A, 0x0B) : Nat × Nat) ≠ (0, 0) := by
  decide

/-! ## C5: session teardown -/

/-- C5: `mcrd_finish` does not discard the cached directory metadata.  The
guard `if (card) return 0;` makes the function return immediately for every
live (non-null) card handle, so the session state — including every
directory's loaded rule and key records — survives teardown unchanged; in
particular a session holding one cached directory with a loaded rule record
still holds it afterwards.  (The cleanup loop below the guard is dead code;
the inverted null test contradicts it.) -/
theorem finish_retains_session_state_bug :
    (∀ priv : St, mcrd_finish priv = (0, priv)) ∧
    (mcrd_finish
        { curpath := [0x3F00], is_ef := false,
          dfis := [{ path := [0x3F00],
                     rule_file := [{ recno := 1, data := [0x90, 0x00] }],
                     keyd_file := [] }],
          n := 0, trace := [] }).2.dfis ≠ [] := by
  exact ⟨fun _ => rfl, by decide⟩

/-! ## C9: FCP decoding -/

theorem fcpId_desc_fields (buf : List Nat) (f : ScFile) :
    (fcpId buf f).ftype = f.ftype ∧ (fcpId buf f).shareable = f.shareable ∧
    (fcpId buf f).ef_structure = f.ef_structure := by
  unfold fcpId
  split <;> exact ⟨rfl, rfl, rfl⟩

theorem fcpSize_desc_fields (buf : List Nat) (f : ScFile) :
    (fcpSize buf f).1.ftype = f.ftype ∧ (fcpSize buf f).1.shareable = f.shareable ∧
    (fcpSize buf f).1.ef_structure = f.ef_structure := by
  unfold fcpSize
  split
  · exact ⟨rfl, rfl, rfl⟩
  · exact ⟨rfl, rfl, rfl⟩
  · split
    · exact ⟨rfl, rfl, rfl⟩
    · exact ⟨rfl, rfl, rfl⟩
    · split <;> exact ⟨rfl, rfl, rfl⟩

theorem fcpName_desc_fields (buf : List Nat) (f : ScFile) :
    (fcpName buf f).ftype = f.ftype ∧ (fcpName buf f).shareable = f.shareable ∧
    (fcpName buf f).ef_structure = f.ef_structure := by
  unfold fcpName
  split
  · split <;> exact ⟨rfl, rfl, rfl⟩
  · exact ⟨rfl, rfl, rfl⟩

theorem fcpProp_desc_fields (buf : List Nat) (bad_fde : Bool) (f : ScFile) :
    (fcpProp buf bad_fde f).ftype = f.ftype ∧
    (fcpProp buf bad_fde f).shareable = f.shareable ∧
    (fcpProp buf bad_fde f).ef_structure = f.ef_structure := by
  unfold fcpProp
  split <;> split <;> exact ⟨rfl, rfl, rfl⟩

theorem fcpSec_desc_fields (buf : List Nat) (f : ScFile) :
    (fcpSec buf f).ftype = f.ftype ∧ (fcpSec buf f).shareable = f.shareable ∧
    (fcpSec buf f).ef_structure = f.ef_structure := by
  unfold fcpSec
  split <;> exact ⟨rfl, rfl, rfl⟩

/-- C9: FCP decoding of the descriptor byte.  First, the concrete round
trip: a response encoding identifier `0x4101` (tag `0x83`), size 100 (tag
`0x81`) and descriptor byte `0x41` (tag `0x82`: shareable bit set, type
selector 0, EF structure 1) yields identifier `0x4101`, size 100, type
working EF and the shareable flag.  Second, in general, whenever the first
descriptor byte is `b`, bit `0x40` of `b` becomes the shareable flag, the
low three bits become the EF structure code, and the selector in bits 3..5
maps `0`/`1`/`7` to working EF / internal EF / DF and every other value to
`unknown`. -/
theorem process_fcp_descriptor :
    (process_fcp [0x83, 0x02, 0x41, 0x01, 0x81, 0x02, 0x00, 0x64, 0x82, 0x01, 0x41]
      = { id := 0x4101, size := 100, ftype := FileType.workingEF,
          ef_structure := 1, shareable := true }) ∧
    (∀ (buf : List Nat) (b : Nat) (bs : List Nat),
       findTag 0x82 buf = some (b :: bs) →
       (process_fcp buf).shareable = (b &&& 0x40 != 0) ∧
       (process_fcp buf).ef_structure = b &&& 0x07 ∧
       (process_fcp buf).ftype
         = (if (b >>> 3) &&& 7 = 0 then FileType.workingEF
            else if (b >>> 3) &&& 7 = 1 then FileType.internalEF
            else if (b >>> 3) &&& 7 = 7 then FileType.df
            else FileType.unknown)) := by
  constructor
  · decide
  · intro buf b bs h82
    have hpre : (fcpSize buf (fcpId buf {})).1.ftype = FileType.unknown := by
      rw [(fcpSize_desc_fields buf (fcpId buf {})).1, (fcpId_desc_fields buf {}).1]
    have hdesc :
        (fcpDesc buf (fcpSize buf (fcpId buf {})).1).shareable = (b &&& 0x40 != 0) ∧
        (fcpDesc buf (fcpSize buf (fcpId buf {})).1).ef_structure = b &&& 0x07 ∧
        (fcpDesc buf (fcpSize buf (fcpId buf {})).1).ftype
          = (if (b >>> 3) &&& 7 = 0 then FileType.workingEF
             else if (b >>> 3) &&& 7 = 1 then FileType.internalEF
             else if (b >>> 3) &&& 7 = 7 then FileType.df
             else FileType.unknown) := by
      unfold fcpDesc
      rw [h82]
      dsimp only
      refine ⟨rfl, rfl, ?_⟩
      rw [hpre]
    unfold process_fcp
    dsimp only
    rcases fcpSec_desc_fields buf
        (fcpProp buf (fcpSize buf (fcpId buf {})).2
          (fcpName buf (fcpDesc buf (fcpSize buf (fcpId buf {})).1)))
      with ⟨hs1, hs2, hs3⟩
    rcases fcpProp_desc_fields buf (fcpSize buf (fcpId buf {})).2
        (fcpName buf (fcpDesc buf (fcpSize buf (fcpId buf {})).1))
      with ⟨hp1, hp2, hp3⟩
    rcases fcpName_desc_fields buf (fcpDesc buf (fcpSize buf (fcpId buf {})).1)
      with ⟨hn1, hn2, hn3⟩
    refine ⟨?_, ?_, ?_⟩
    · rw [hs2, hp2, hn2, hdesc.1]
    · rw [hs3, hp3, hn3, hdesc.2.1]
    · rw [hs1, hp1, hn1, hdesc.2.2]

/-- C9 witness: the general part of the statement applied to the concrete
response of the round-trip part (descriptor byte `0x41`). -/
theorem process_fcp_descriptor_witness :
    (process_fcp [0x83, 0x02, 0x41, 0x01, 0x81, 0x02, 0x00, 0x64, 0x82, 0x01, 0x41]).shareable
        = (0x41 &&& 0x40 != 0) ∧
    (process_fcp [0x83, 0x02, 0x41, 0x01, 0x81, 0x02, 0x00, 0x64, 0x82, 0x01, 0x41]).ef_structure
        = 0x41 &&& 0x07 ∧
    (process_fcp [0x83, 0x02, 0x41, 0x01, 0x81, 0x02, 0x00, 0x64, 0x82, 0x01, 0x41]).ftype
        = (if (0x41 >>> 3) &&& 7 = 0 then FileType.workingEF
           else if (0x41 >>> 3) &&& 7 = 1 then FileType.internalEF
           else if (0x41 >>> 3) &&& 7 = 7 then FileType.df
           else FileType.unknown) :=
  process_fcp_descriptor.2 [0x83, 0x02, 0x41, 0x01, 0x81, 0x02, 0x00, 0x64, 0x82, 0x01, 0x41]
    0x41 [] (by decide)

/-! ## C2: error handling of `mcrd_set_security_env` -/

/-- C2 counterexample.  A sign operation with a present 2-byte file
reference whose embedded identifier has no key-directory entry (empty key
record list): the claim says this is an invalid-argument error with no
command transmitted; the code instead transmits the MSE set command with
the bare 3-byte template and returns the card's status (success here). -/
theorem set_sec_env_unresolved_key_cex :
    mcrd_set_security_env []
        { operation := SecOp.sign, fileRefPresent := true, fileRef := [0x41, 0x01] }
        0 0 0
      = (0, [SeCmd.setEnv 0x41 0xB6 [0x83, 0x03, 0x80]]) ∧
    (0 : Int) ≠ SC_ERROR_INVALID_ARGUMENTS ∧
    ([SeCmd.setEnv 0x41 0xB6 [0x83, 0x03, 0x80]] : List SeCmd) ≠ [] := by
  refine ⟨by decide, by decide, by decide⟩

/-- C2 (amended): an unsupported operation kind, or an absent file
reference, or one shorter than 2 bytes, is rejected with an invalid-argument
error before any command is transmitted; but an unresolvable key reference
is not rejected — the MSE set command is transmitted anyway carrying only
the fixed 3-byte template `83 03 80` (no reference bytes, no restore
command), and the call returns the transport's status for it. -/
theorem set_sec_env_error_paths_amended :
    (∀ (keyd : List RecEntry) (env : SecEnv) (se rs ss : Int),
       secOpParams env.operation = none →
       mcrd_set_security_env keyd env se rs ss = (SC_ERROR_INVALID_ARGUMENTS, [])) ∧
    (∀ (keyd : List RecEntry) (env : SecEnv) (se rs ss : Int),
       ¬(env.fileRefPresent = true ∧ 1 < env.fileRef.length) →
       mcrd_set_security_env keyd env se rs ss = (SC_ERROR_INVALID_ARGUMENTS, [])) ∧
    (∀ (keyd : List RecEntry) (env : SecEnv) (rs ss : Int) (p1 p2 : Nat),
       secOpParams env.operation = some (p1, p2) →
       env.fileRefPresent = true → 1 < env.fileRef.length →
       (get_se_num_from_keyd keyd
           (env.fileRef.getD (env.fileRef.length - 2) 0 * 256 +
            env.fileRef.getD (env.fileRef.length - 1) 0) (0, 0)).2 = -1 →
       mcrd_set_security_env keyd env 0 rs ss
         = (ss, [SeCmd.setEnv p1 p2 [0x83, 0x03, 0x80]])) := by
  refine ⟨?_, ?_, ?_⟩
  · intro keyd env se rs ss hop
    unfold mcrd_set_security_env
    split
    · rfl
    · rw [hop]
  · intro keyd env se rs ss href
    unfold mcrd_set_security_env
    split
    · rfl
    · split
      · rfl
      · rfl
  · intro keyd env rs ss p1 p2 hop hpres hlen hnum
    unfold mcrd_set_security_env
    rw [if_neg (by simp), hop]
    dsimp only
    rw [if_pos ⟨hpres, hlen⟩, hnum]
    by_cases hss : ss = 0 <;> simp [hss]

/-- C2 witness: the three parts of the amended statement at concrete
inputs: an unsupported operation; a 1-byte file reference; a sign request
whose identifier has no key-directory entry, with the transport reporting
status `-1205` for the transmitted command. -/
theorem set_sec_env_error_paths_amended_witness :
    (mcrd_set_security_env []
        { operation := SecOp.other, fileRefPresent := true, fileRef := [0x41, 0x01] }
        0 0 0 = (SC_ERROR_INVALID_ARGUMENTS, [])) ∧
    (mcrd_set_security_env []
        { operation := SecOp.sign, fileRefPresent := true, fileRef := [0x01] }
        0 0 0 = (SC_ERROR_INVALID_ARGUMENTS, [])) ∧
    (mcrd_set_security_env []
        { operation := SecOp.sign, fileRefPresent := true, fileRef := [0x41, 0x01] }
        0 0 (-1205) = (-1205, [SeCmd.setEnv 0x41 0xB6 [0x83, 0x03, 0x80]])) := by
  refine ⟨?_, ?_, ?_⟩
  · exact set_sec_env_error_paths_amended.1 [] _ 0 0 0 (by decide)
  · exact set_sec_env_error_paths_amended.2.1 [] _ 0 0 0 (by decide)
  · exact set_sec_env_error_paths_amended.2.2 [] _ 0 (-1205) 0x41 0xB6
      (by decide) (by decide) (by decide) (by decide)

/-! ## C3: empty FileIdentifier request with metadata -/

/-- C3: with the path cache at `[0x3F00, 0x4100]` (a data file selected), an
empty FileIdentifier-mode request with metadata requested does pop to the
parent, but then descends into `pathptr[0]` — which for a zero-component
request is the uninitialized conversion-buffer word (modelled as `0x5555`)
and not the cached identifier `0x4100`.  The card is sent an EF select for
`0x5555` and the cache ends as `[0x3F00, 0x5555]`, instead of the claimed
re-selection of the current file `0x4100`. -/
theorem fid_empty_request_selects_junk_bug :
    select_file_by_fid
        { sel := fun _ _ _ => 0, readR := fun _ _ => ⟨0, 0x6A, 0x83, []⟩ } 5
        [] 0x5555 true
        { curpath := [0x3F00, 0x4100], is_ef := true, dfis := [], n := 0, trace := [] }
      = (0, { curpath := [0x3F00, 0x5555], is_ef := true, dfis := [], n := 1,
              trace := [CardOp.sel MCRD_SEL_EF 0x5555] }) ∧
    (0x5555 : Nat) ≠ 0x4100 := by
  refine ⟨by decide, by decide⟩

/-! ## C8: re-resolving the cached path -/

theorem commonLen_self : ∀ l : List Nat, commonLen l l = l.length := by
  intro l
  induction l with
  | nil => rfl
  | cons a t ih => simp [commonLen, ih]

/-- C8 counterexample.  The cached path `[0x3F00]` (just the root) is an
absolute path equal to the cache, but re-resolving it with `needMetadata =
false` is not transport-free: the root branch of `select_file_by_path`
always clears the cache and re-selects the MF, issuing one select command. -/
theorem repeat_resolve_root_cex :
    select_file_by_path
        { sel := fun _ _ _ => 0, readR := fun _ _ => ⟨0, 0x6A, 0x83, []⟩ } 5
        [0x3F00] false
        { curpath := [0x3F00], is_ef := false, dfis := [], n := 0, trace := [] }
      = (0, { curpath := [0x3F00], is_ef := false, dfis := [], n := 1,
              trace := [CardOp.sel MCRD_SEL_MF 0x3F00] }) ∧
    ([CardOp.sel MCRD_SEL_MF 0x3F00] : List CardOp) ≠ [] := by
  refine ⟨by decide, by decide⟩

/-- C8 (amended): for every absolute path of at least 2 and at most 9
components that exactly equals the cached path, re-resolving it with
`needMetadata = false` is a no-op success: the state (including the
command count and trace) is returned unchanged, so no transport call is
issued.  (A one-component path — the bare root — instead re-selects the MF,
and a path of 10 or more components is rejected as an invalid argument.) -/
theorem repeat_resolve_cached_noop :
    ∀ (o : Oracle) (fuel : Nat) (p : List Nat) (st : St),
      st.curpath = p → 2 ≤ p.length → p.length < MAX_CURPATH →
      p.head? = some MFID →
      select_file_by_path o fuel p false st = (0, st) := by
  intro o fuel p st hpath hlen2 hlen10 hhead
  have hp3fff : ¬(p.head? = some 0x3FFF) := by rw [hhead]; decide
  unfold select_file_by_path
  rw [if_neg (not_not_intro (Or.inr (by rw [hpath]; exact hhead)))]
  try dsimp only
  rw [if_neg hp3fff]
  rw [if_neg (by rw [MAX_CURPATH] at hlen10 ⊢; omega)]
  rw [if_neg (fun h => by omega)]
  rw [if_pos ⟨by omega, hhead⟩]
  try dsimp only
  rw [hpath, commonLen_self]
  rw [if_neg (by omega)]
  rw [if_neg (fun h => lt_irrefl _ h.2)]
  rw [if_pos ⟨rfl, rfl⟩]
  rw [if_pos (by decide)]

/-- C8 witness: the amended statement at the concrete cached path
`[0x3F00, 0x4100]`. -/
theorem repeat_resolve_cached_noop_witness :
    select_file_by_path
        { sel := fun _ _ _ => 0, readR := fun _ _ => ⟨0, 0x6A, 0x83, []⟩ } 5
        [0x3F00, 0x4100] false
        { curpath := [0x3F00, 0x4100], is_ef := false, dfis := [], n := 0, trace := [] }
      = (0, { curpath := [0x3F00, 0x4100], is_ef := false, dfis := [], n := 0, trace := [] }) :=
  repeat_resolve_cached_noop _ 5 [0x3F00, 0x4100] _ rfl (by decide) (by decide) (by decide)

/-! ## C6: mid-descent failure leaves the cache at the selected prefix -/

theorem rangeMap_succ (ptr : Nat → Nat) (off m : Nat) :
    (List.range (m + 1)).map (fun i => ptr (off + i))
      = ptr off :: (List.range m).map (fun i => ptr (off + 1 + i)) := by
  rw [List.range_succ_eq_map, List.map_cons, List.map_map]
  have h : (List.range m).map ((fun i => ptr (off + i)) ∘ Nat.succ)
      = (List.range m).map (fun i => ptr (off + 1 + i)) :=
    List.map_congr_left (fun a _ => by
      simp only [Function.comp_apply]
      congr 1
      omega)
  rw [h]
  simp

theorem sdLoop_spec (o : Oracle) (ptr : Nat → Nat) (dfo fci : Bool) :
    ∀ (len off : Nat) (st : St) (e : Int) (st2 : St) (fd : Bool),
      st.curpath.length + len ≤ MAX_CURPATH →
      sdLoop o ptr dfo fci off len st = (e, st2, fd) →
      (e = 0 → st2.curpath = st.curpath ++ (List.range len).map (fun i => ptr (off + i))) ∧
      (e ≠ 0 → ∃ k, k < len ∧
        st2.curpath = st.curpath ++ (List.range k).map (fun i => ptr (off + i)) ∧
        st2.is_ef = st.is_ef ∧ st2.dfis = st.dfis ∧
        e = o.sel (st.n + k + (if k + 1 = len ∧ dfo = false then 1 else 0))
              (forcedKind MCRD_SEL_DF (ptr (off + k))) (ptr (off + k))) := by
  intro len
  induction len with
  | zero =>
    intro off st e st2 fd hlen heq
    simp only [sdLoop, Prod.mk.injEq] at heq
    obtain ⟨he, hst, hfd⟩ := heq
    subst he; subst hst
    exact ⟨fun _ => by simp, fun h => absurd rfl h⟩
  | succ m ih =>
    intro off st e st2 fd hlen heq
    have h10 : ¬(st.curpath.length = MAX_CURPATH) := by
      simp only [MAX_CURPATH] at hlen ⊢; omega
    rw [sdLoop] at heq
    rw [if_neg h10] at heq
    dsimp only at heq
    by_cases hEF : m = 0 ∧ dfo = false
    · rw [if_pos hEF] at heq
      obtain ⟨hm, hdfo⟩ := hEF
      subst hm
      by_cases hr1 : (select_part o MCRD_SEL_EF (ptr off) st).1 = 0
      · rw [if_pos hr1] at heq
        simp only [Prod.mk.injEq] at heq
        obtain ⟨he, hst, hfd⟩ := heq
        subst he; subst hst
        refine ⟨fun _ => ?_, fun h => absurd rfl h⟩
        simp [select_part_snd, List.range_succ]
      · rw [if_neg hr1] at heq
        by_cases hr2 : (select_part o MCRD_SEL_DF (ptr off)
            (select_part o MCRD_SEL_EF (ptr off) st).2).1 = 0
        · rw [if_neg (not_not_intro hr2)] at heq
          simp only [sdLoop, Prod.mk.injEq] at heq
          obtain ⟨he, hst, hfd⟩ := heq
          subst he; subst hst
          refine ⟨fun _ => ?_, fun h => absurd rfl h⟩
          simp [select_part_snd, List.range_succ]
        · rw [if_pos hr2] at heq
          simp only [Prod.mk.injEq] at heq
          obtain ⟨he, hst, hfd⟩ := heq
          subst he; subst hst
          refine ⟨fun h0 => absurd h0 hr2, fun _ => ?_⟩
          refine ⟨0, by omega, ?_, ?_, ?_, ?_⟩
          · simp [select_part_snd]
          · simp [select_part_snd]
          · simp [select_part_snd]
          · rw [if_pos ⟨rfl, hdfo⟩]
            simp [select_part_fst, select_part_snd]
    · rw [if_neg hEF] at heq
      rw [if_neg (by decide : ¬((-1 : Int) = 0))] at heq
      by_cases hr2 : (select_part o MCRD_SEL_DF (ptr off) st).1 = 0
      · rw [if_neg (not_not_intro hr2)] at heq
        have hlen3 :
            ({ (select_part o MCRD_SEL_DF (ptr off) st).2 with
               curpath := (select_part o MCRD_SEL_DF (ptr off) st).2.curpath
                 ++ [ptr off] } : St).curpath.length + m ≤ MAX_CURPATH := by
          simp only [select_part_curpath, List.length_append, List.length_cons,
            List.length_nil]
          omega
        obtain ⟨hsucc, hfail⟩ := ih (off + 1) _ e st2 fd hlen3 heq
        constructor
        · intro he
          rw [hsucc he]
          simp only [select_part_curpath]
          rw [rangeMap_succ ptr off m]
          simp [List.append_assoc]
        · intro he
          obtain ⟨k, hk, hcur, hef, hdfis, hsel⟩ := hfail he
          refine ⟨k + 1, by omega, ?_, ?_, ?_, ?_⟩
          · rw [hcur]
            simp only [select_part_curpath]
            rw [rangeMap_succ ptr off k]
            simp [List.append_assoc]
          · rw [hef]; simp [select_part_is_ef]
          · rw [hdfis]; simp [select_part_dfis]
          · rw [hsel]
            simp only [select_part_snd]
            have harg : off + (k + 1) = off + 1 + k := by omega
            rw [harg]
            by_cases hc : k + 1 = m ∧ dfo = false
            · rw [if_pos hc, if_pos ⟨by omega, hc.2⟩]
              have hidx : st.n + (k + 1) + 1 = st.n + 1 + k + 1 := by omega
              rw [hidx]
            · rw [if_neg hc,
                  if_neg (by rintro ⟨h1, h2⟩; exact hc ⟨by omega, h2⟩)]
              have hidx : st.n + (k + 1) + 0 = st.n + 1 + k + 0 := by omega
              rw [hidx]
      · rw [if_pos hr2] at heq
        simp only [Prod.mk.injEq] at heq
        obtain ⟨he, hst, hfd⟩ := heq
        subst he; subst hst
        refine ⟨fun h0 => absurd h0 hr2, fun _ => ?_⟩
        refine ⟨0, by omega, by simp [select_part_snd], by simp [select_part_snd],
                by simp [select_part_snd], ?_⟩
        rw [if_neg (by rintro ⟨h1, h2⟩; exact hEF ⟨by omega, h2⟩)]
        simp [select_part_fst]

/-- C6: during a multi-component descent each identifier is appended to the
cache immediately after the card accepts its single-level select, so when a
select fails at component `k` the descent aborts, the error is the verbatim
transport status of the failing select (the DF select — at index one past
the EF attempt when `k` is the final component and a data-file selection
was attempted first), the cache holds exactly the `k` identifiers actually
selected, and the data-file flag and metadata store are untouched; when
every component succeeds the cache holds the full requested suffix.  (The
depth hypothesis keeps the descent below the cache capacity; hitting the
capacity is a distinct internal error, also with no rollback.) -/
theorem select_down_partial_descent :
    (∀ (o : Oracle) (fuel : Nat) (ptr : Nat → Nat) (off len : Nat) (dfo fci : Bool)
       (st : St) (e : Int) (st2 : St),
       0 < len → st.curpath.length + len ≤ MAX_CURPATH →
       select_down o fuel ptr off len dfo fci st = (e, st2) → e ≠ 0 →
       ∃ k, k < len ∧
         st2.curpath = st.curpath ++ (List.range k).map (fun i => ptr (off + i)) ∧
         st2.is_ef = st.is_ef ∧ st2.dfis = st.dfis ∧
         e = o.sel (st.n + k + (if k + 1 = len ∧ dfo = false then 1 else 0))
               (forcedKind MCRD_SEL_DF (ptr (off + k))) (ptr (off + k))) ∧
    (∀ (o : Oracle) (fuel : Nat) (ptr : Nat → Nat) (off len : Nat) (dfo fci : Bool)
       (st : St) (e : Int) (st2 : St),
       0 < len → st.curpath.length + len ≤ MAX_CURPATH →
       select_down o fuel ptr off len dfo fci st = (e, st2) → e = 0 →
       st2.curpath = st.curpath ++ (List.range len).map (fun i => ptr (off + i))) := by
  constructor
  · intro o fuel ptr off len dfo fci st e st2 hpos hlen heq he
    have hspec := sdLoop_spec o ptr dfo fci len off st
      (sdLoop o ptr dfo fci off len st).1
      (sdLoop o ptr dfo fci off len st).2.1
      (sdLoop o ptr dfo fci off len st).2.2 hlen rfl
    unfold select_down at heq
    rw [if_neg (by omega)] at heq
    dsimp only at heq
    by_cases h1 : (sdLoop o ptr dfo fci off len st).1 ≠ 0
    · rw [if_pos h1] at heq
      simp only [Prod.mk.injEq] at heq
      obtain ⟨he1, hst1⟩ := heq
      subst he1; subst hst1
      exact hspec.2 h1
    · rw [if_neg h1] at heq
      split at heq <;>
        (simp only [Prod.mk.injEq] at heq; exact absurd heq.1.symm he)
  · intro o fuel ptr off len dfo fci st e st2 hpos hlen heq he
    have hspec := sdLoop_spec o ptr dfo fci len off st
      (sdLoop o ptr dfo fci off len st).1
      (sdLoop o ptr dfo fci off len st).2.1
      (sdLoop o ptr dfo fci off len st).2.2 hlen rfl
    unfold select_down at heq
    rw [if_neg (by omega)] at heq
    dsimp only at heq
    by_cases h1 : (sdLoop o ptr dfo fci off len st).1 ≠ 0
    · rw [if_pos h1] at heq
      simp only [Prod.mk.injEq] at heq
      exact absurd (heq.1.trans he) h1
    · rw [if_neg h1] at heq
      have hone := hspec.1 (not_not.mp h1)
      split at heq <;>
        (simp only [Prod.mk.injEq] at heq;
         obtain ⟨he1, hst1⟩ := heq; subst hst1)
      · exact hone
      · rw [load_special_files_curpath]
        exact hone

/-- C6 witness: a three-component descent from the cached root where the
card rejects the second component's select with status `-1205`. -/
theorem select_down_partial_descent_witness :
    ∃ k, k < 3 ∧
      (select_down
          { sel := fun n _ _ => if n = 1 then -1205 else 0,
            readR := fun _ _ => ⟨0, 0x6A, 0x83, []⟩ } 3
          (fun i => List.getD [0x4100, 0x4200, 0x4300] i 0) 0 3 false false
          { curpath := [0x3F00], is_ef := false, dfis := [], n := 0, trace := [] }).2.curpath
        = ({ curpath := [0x3F00], is_ef := false, dfis := [], n := 0, trace := [] } : St).curpath
          ++ (List.range k).map (fun i => List.getD [0x4100, 0x4200, 0x4300] (0 + i) 0) ∧
      (select_down
          { sel := fun n _ _ => if n = 1 then -1205 else 0,
            readR := fun _ _ => ⟨0, 0x6A, 0x83, []⟩ } 3
          (fun i => List.getD [0x4100, 0x4200, 0x4300] i 0) 0 3 false false
          { curpath := [0x3F00], is_ef := false, dfis := [], n := 0, trace := [] }).2.is_ef
        = false ∧
      (select_down
          { sel := fun n _ _ => if n = 1 then -1205 else 0,
            readR := fun _ _ => ⟨0, 0x6A, 0x83, []⟩ } 3
          (fun i => List.getD [0x4100, 0x4200, 0x4300] i 0) 0 3 false false
          { curpath := [0x3F00], is_ef := false, dfis := [], n := 0, trace := [] }).2.dfis
        = [] ∧
      (select_down
          { sel := fun n _ _ => if n = 1 then -1205 else 0,
            readR := fun _ _ => ⟨0, 0x6A, 0x83, []⟩ } 3
          (fun i => List.getD [0x4100, 0x4200, 0x4300] i 0) 0 3 false false
          { curpath := [0x3F00], is_ef := false, dfis := [], n := 0, trace := [] }).1
        = Oracle.sel
            { sel := fun n _ _ => if n = 1 then -1205 else 0,
              readR := fun _ _ => ⟨0, 0x6A, 0x83, []⟩ }
            (0 + k + (if k + 1 = 3 ∧ false = false then 1 else 0))
            (forcedKind MCRD_SEL_DF (List.getD [0x4100, 0x4200, 0x4300] (0 + k) 0))
            (List.getD [0x4100, 0x4200, 0x4300] (0 + k) 0) :=
  select_down_partial_descent.1
    { sel := fun n _ _ => if n = 1 then -1205 else 0,
      readR := fun _ _ => ⟨0, 0x6A, 0x83, []⟩ } 3
    (fun i => List.getD [0x4100, 0x4200, 0x4300] i 0) 0 3 false false
    { curpath := [0x3F00], is_ef := false, dfis := [], n := 0, trace := [] }
    _ _ (by decide) (by decide) rfl (by decide)

/-! ## C7: tolerated and propagated failures of the metadata loader -/

theorem lookupDf_map_keyd (l : List DfInfo) (k2 : List Nat) (g : DfInfo → DfInfo)
    (hp : ∀ d, (g d).path = d.path) (hk : ∀ d, (g d).keyd_file = d.keyd_file) :
    (lookupDf (l.map g) k2).keyd_file = (lookupDf l k2).keyd_file := by
  induction l with
  | nil => rfl
  | cons d ds ih =>
    simp only [List.map_cons]
    unfold lookupDf findDf
    by_cases h : d.path = k2
    · rw [List.find?_cons_of_pos _ (by simp [hp, h]),
          List.find?_cons_of_pos _ (by simp [h])]
      simp [hk]
    · rw [List.find?_cons_of_neg _ (by simp [hp, h]),
          List.find?_cons_of_neg _ (by simp [h])]
      simpa [lookupDf, findDf] using ih

theorem lookupDf_clear_keyd (l : List DfInfo) (key : List Nat) :
    (lookupDf (l.map (fun d => if d.path = key then clear_special_files d else d))
        key).keyd_file = [] := by
  induction l with
  | nil => rfl
  | cons d ds ih =>
    simp only [List.map_cons]
    unfold lookupDf findDf
    by_cases h : d.path = key
    · rw [List.find?_cons_of_pos _ (by simp [h, clear_special_files])]
      simp [h, clear_special_files]
    · rw [List.find?_cons_of_neg _ (by simp [h, clear_special_files])]
      simpa [lookupDf, findDf] using ih

theorem readLoop_keyd (o : Oracle) (key : List Nat) :
    ∀ fuel recno (st : St) (k2 : List Nat),
      (lookupDf (readLoop o key true fuel recno st).2.dfis k2).keyd_file
        = (lookupDf st.dfis k2).keyd_file := by
  intro fuel
  induction fuel with
  | zero => intro recno st k2; rfl
  | succ m ih =>
    intro recno st k2
    unfold readLoop
    dsimp only
    split
    · rfl
    · split
      · rfl
      · split
        · rfl
        · rw [ih]
          unfold updateDf
          dsimp only
          exact lookupDf_map_keyd _ _ _
            (fun d => by split <;> simp [storeRec])
            (fun d => by split <;> simp [storeRec])

/-- C7: failure policy of `load_special_files`.  (1) A read-record answer
with status word `0x6A83` ("record not found") terminates the record scan
normally, storing nothing further.  (2) Any other answer that is neither
`0x9000` nor `0x6282` aborts the scan with the mapped error.  (3) When the
rule file loads and the `EF_KeyD` select then fails with "file not found",
the whole load succeeds and the directory's key-record collection is empty.
(4) When the `EF_KeyD` select fails with any other nonzero status, that
status is propagated as the load's result. -/
theorem load_special_files_error_policy :
    (∀ (o : Oracle) (key : List Nat) (isRule : Bool) (fuel recno : Nat) (st : St),
       (o.readR st.n recno).xmit = 0 →
       (o.readR st.n recno).sw1 = 0x6A → (o.readR st.n recno).sw2 = 0x83 →
       readLoop o key isRule (fuel + 1) recno st = (none, logRec st recno)) ∧
    (∀ (o : Oracle) (key : List Nat) (isRule : Bool) (fuel recno : Nat) (st : St),
       (o.readR st.n recno).xmit = 0 →
       ¬((o.readR st.n recno).sw1 = 0x6A ∧ (o.readR st.n recno).sw2 = 0x83) →
       ¬(((o.readR st.n recno).sw1 = 0x90 ∧ (o.readR st.n recno).sw2 = 0x00) ∨
         ((o.readR st.n recno).sw1 = 0x62 ∧ (o.readR st.n recno).sw2 = 0x82)) →
       readLoop o key isRule (fuel + 1) recno st
         = (some (sc_check_sw (o.readR st.n recno).sw1 (o.readR st.n recno).sw2),
            logRec st recno)) ∧
    (∀ (o : Oracle) (fuel : Nat) (st : St) (key : List Nat) (st1 st3 st4 : St),
       st.is_ef = false →
       get_df_info st = (some key, st1) →
       (lookupDf st1.dfis key).rule_file = [] →
       select_part o MCRD_SEL_EF EF_Rule (updateDf st1 key clear_special_files) = (0, st3) →
       readLoop o key true fuel 1 st3 = (none, st4) →
       o.sel st4.n MCRD_SEL_EF EF_KeyD = SC_ERROR_FILE_NOT_FOUND →
       load_special_files o fuel st = (0, (select_part o MCRD_SEL_EF EF_KeyD st4).2) ∧
       (lookupDf ((select_part o MCRD_SEL_EF EF_KeyD st4).2).dfis key).keyd_file = []) ∧
    (∀ (o : Oracle) (fuel : Nat) (st : St) (key : List Nat) (st1 st3 st4 : St) (e : Int),
       st.is_ef = false →
       get_df_info st = (some key, st1) →
       (lookupDf st1.dfis key).rule_file = [] →
       select_part o MCRD_SEL_EF EF_Rule (updateDf st1 key clear_special_files) = (0, st3) →
       readLoop o key true fuel 1 st3 = (none, st4) →
       o.sel st4.n MCRD_SEL_EF EF_KeyD = e →
       e ≠ SC_ERROR_FILE_NOT_FOUND → e ≠ 0 →
       load_special_files o fuel st = (e, (select_part o MCRD_SEL_EF EF_KeyD st4).2)) := by
  have hfk : forcedKind MCRD_SEL_EF EF_KeyD = MCRD_SEL_EF := by decide
  refine ⟨?_, ?_, ?_, ?_⟩
  · intro o key isRule fuel recno st hx h1 h2
    rw [readLoop]
    try dsimp only
    rw [if_neg (not_not_intro hx), if_pos ⟨h1, h2⟩]
  · intro o key isRule fuel recno st hx hnrec hbad
    rw [readLoop]
    try dsimp only
    rw [if_neg (not_not_intro hx), if_neg hnrec, if_pos hbad]
  · intro o fuel st key st1 st3 st4 hef hdfi hrule hsp hrl hk
    have hmain :
        load_special_files o fuel st = (0, (select_part o MCRD_SEL_EF EF_KeyD st4).2) := by
      unfold load_special_files
      rw [if_neg (by rw [hef]; exact Bool.false_ne_true), hdfi]
      try dsimp only
      rw [if_neg (not_not_intro hrule)]
      try dsimp only
      rw [hsp]
      try dsimp only
      rw [if_neg (by decide), hrl]
      try dsimp only
      rw [select_part_fst, hfk, hk]
      rw [if_pos rfl]
    refine ⟨hmain, ?_⟩
    rw [select_part_dfis]
    have h4 : st4.dfis = (readLoop o key true fuel 1 st3).2.dfis := by rw [hrl]
    have h3 : st3.dfis = (updateDf st1 key clear_special_files).dfis := by
      have h0 := congrArg (fun x => x.2.dfis) hsp
      dsimp only at h0
      exact h0.symm
    calc (lookupDf st4.dfis key).keyd_file
        = (lookupDf (readLoop o key true fuel 1 st3).2.dfis key).keyd_file := by rw [h4]
      _ = (lookupDf st3.dfis key).keyd_file := readLoop_keyd o key fuel 1 st3 key
      _ = (lookupDf (updateDf st1 key clear_special_files).dfis key).keyd_file := by
            rw [h3]
      _ = [] := lookupDf_clear_keyd st1.dfis key
  · intro o fuel st key st1 st3 st4 e hef hdfi hrule hsp hrl hk hne hnz
    unfold load_special_files
    rw [if_neg (by rw [hef]; exact Bool.false_ne_true), hdfi]
    try dsimp only
    rw [if_neg (not_not_intro hrule)]
    try dsimp only
    rw [hsp]
    try dsimp only
    rw [if_neg (by decide), hrl]
    try dsimp only
    rw [select_part_fst, hfk, hk]
    rw [if_neg hne, if_pos hnz]

/-- C7 witness: the four parts at concrete inputs: a scan answered `0x6A83`
at once; a scan answered `0x9055`; a load whose `EF_KeyD` select reports
"file not found" (success, empty key records); and one whose `EF_KeyD`
select reports `-1205` (propagated). -/
theorem load_special_files_error_policy_witness :
    (readLoop { sel := fun _ _ _ => 0, readR := fun _ _ => ⟨0, 0x6A, 0x83, []⟩ }
        [0x3F00] true 1 1
        { curpath := [0x3F00], is_ef := false, dfis := [], n := 0, trace := [] }
      = (none, logRec
          { curpath := [0x3F00], is_ef := false, dfis := [], n := 0, trace := [] } 1)) ∧
    (readLoop { sel := fun _ _ _ => 0, readR := fun _ _ => ⟨0, 0x90, 0x55, []⟩ }
        [0x3F00] true 1 1
        { curpath := [0x3F00], is_ef := false, dfis := [], n := 0, trace := [] }
      = (some SC_ERROR_CARD_CMD_FAILED, logRec
          { curpath := [0x3F00], is_ef := false, dfis := [], n := 0, trace := [] } 1)) ∧
    (load_special_files
        { sel := fun n _ _ => if n = 0 then 0 else SC_ERROR_FILE_NOT_FOUND,
          readR := fun _ _ => ⟨0, 0x6A, 0x83, []⟩ } 2
        { curpath := [0x3F00], is_ef := false, dfis := [], n := 0, trace := [] }
      = (0, { curpath := [0x3F00], is_ef := false,
              dfis := [{ path := [0x3F00], rule_file := [], keyd_file := [] }],
              n := 3,
              trace := [CardOp.sel MCRD_SEL_EF EF_Rule, CardOp.readRec 1,
                        CardOp.sel MCRD_SEL_EF EF_KeyD] }) ∧
     (lookupDf [{ path := [0x3F00], rule_file := [], keyd_file := [] }]
        [0x3F00]).keyd_file = []) ∧
    (load_special_files
        { sel := fun n _ _ => if n = 0 then 0 else -1205,
          readR := fun _ _ => ⟨0, 0x6A, 0x83, []⟩ } 2
        { curpath := [0x3F00], is_ef := false, dfis := [], n := 0, trace := [] }
      = (-1205, { curpath := [0x3F00], is_ef := false,
                  dfis := [{ path := [0x3F00], rule_file := [], keyd_file := [] }],
                  n := 3,
                  trace := [CardOp.sel MCRD_SEL_EF EF_Rule, CardOp.readRec 1,
                            CardOp.sel MCRD_SEL_EF EF_KeyD] })) := by
  refine ⟨?_, ?_, ?_, ?_⟩
  · exact load_special_files_error_policy.1 _ [0x3F00] true 0 1 _ rfl rfl rfl
  · exact load_special_files_error_policy.2.1 _ [0x3F00] true 0 1 _ rfl
      (by decide) (by decide)
  · exact load_special_files_error_policy.2.2.1 _ 2
      { curpath := [0x3F00], is_ef := false, dfis := [], n := 0, trace := [] }
      [0x3F00]
      { curpath := [0x3F00], is_ef := false,
        dfis := [{ path := [0x3F00], rule_file := [], keyd_file := [] }],
        n := 0, trace := [] }
      { curpath := [0x3F00], is_ef := false,
        dfis := [{ path := [0x3F00], rule_file := [], keyd_file := [] }],
        n := 1, trace := [CardOp.sel MCRD_SEL_EF EF_Rule] }
      { curpath := [0x3F00], is_ef := false,
        dfis := [{ path := [0x3F00], rule_file := [], keyd_file := [] }],
        n := 2, trace := [CardOp.sel MCRD_SEL_EF EF_Rule, CardOp.readRec 1] }
      rfl rfl rfl rfl rfl rfl
  · exact load_special_files_error_policy.2.2.2 _ 2
      { curpath := [0x3F00], is_ef := false, dfis := [], n := 0, trace := [] }
      [0x3F00]
      { curpath := [0x3F00], is_ef := false,
        dfis := [{ path := [0x3F00], rule_file := [], keyd_file := [] }],
        n := 0, trace := [] }
      { curpath := [0x3F00], is_ef := false,
        dfis := [{ path := [0x3F00], rule_file := [], keyd_file := [] }],
        n := 1, trace := [CardOp.sel MCRD_SEL_EF EF_Rule] }
      { curpath := [0x3F00], is_ef := false,
        dfis := [{ path := [0x3F00], rule_file := [], keyd_file := [] }],
        n := 2, trace := [CardOp.sel MCRD_SEL_EF EF_Rule, CardOp.readRec 1] }
      (-1205) rfl rfl rfl rfl rfl rfl (by decide) (by decide)

/-! ## C4: the SelectionPathCache invariant -/

theorem dropLast_head? (l : List Nat) (h : 2 ≤ l.length) :
    l.dropLast.head? = l.head? := by
  match l, h with
  | a :: b :: u, _ => rfl

theorem dropLast_ne_nil (l : List Nat) (h : 2 ≤ l.length) : l.dropLast ≠ [] := by
  match l, h with
  | a :: b :: u, _ => simp

theorem getD_zero_of_head? (p : List Nat) (a : Nat) (h : p.head? = some a)
    (dflt : Nat) : p.getD 0 dflt = a := by
  cases p with
  | nil => simp at h
  | cons x t => simp at h; simpa using h

theorem cacheInv_of_curpath (c : List Nat)
    (h1 : c = [] ∨ c.head? = some MFID) (h2 : c.length ≤ MAX_CURPATH)
    (s : St) (hc : s.curpath = c) : cacheInv s := by
  unfold cacheInv
  rw [hc]
  exact ⟨h1, h2⟩

theorem sdLoop_inv (o : Oracle) (ptr : Nat → Nat) (dfo fci : Bool) :
    ∀ len off (st : St), cacheInv st → (st.curpath ≠ [] ∨ ptr off = MFID) →
      cacheInv (sdLoop o ptr dfo fci off len st).2.1 := by
  intro len
  induction len with
  | zero => intro off st h _; exact h
  | succ m ih =>
    intro off st hinv hpre
    rw [sdLoop]
    by_cases h10 : st.curpath.length = MAX_CURPATH
    · rw [if_pos h10]; exact hinv
    · rw [if_neg h10]
      try dsimp only
      have hfact1 : st.curpath ++ [ptr off] = [] ∨
          (st.curpath ++ [ptr off]).head? = some MFID := by
        right
        cases hcur : st.curpath with
        | nil =>
          rcases hpre with hne | hmf
          · exact absurd hcur hne
          · simp [hmf]
        | cons a t =>
          rcases hinv.1 with h | h
          · rw [hcur] at h; simp at h
          · rw [hcur] at h
            simpa using h
      have hfact2 : (st.curpath ++ [ptr off]).length ≤ MAX_CURPATH := by
        have h2 := hinv.2
        simp only [List.length_append, List.length_cons, List.length_nil]
        omega
      by_cases hEF : m = 0 ∧ dfo = false
      · rw [if_pos hEF]
        by_cases hr1 : (select_part o MCRD_SEL_EF (ptr off) st).1 = 0
        · rw [if_pos hr1]
          exact cacheInv_of_curpath _ hfact1 hfact2 _ (by simp [select_part_snd])
        · rw [if_neg hr1]
          by_cases hr2 : (select_part o MCRD_SEL_DF (ptr off)
              (select_part o MCRD_SEL_EF (ptr off) st).2).1 = 0
          · rw [if_neg (not_not_intro hr2)]
            apply ih
            · exact cacheInv_of_curpath _ hfact1 hfact2 _ (by simp [select_part_snd])
            · left
              simp [select_part_snd]
          · rw [if_pos hr2]
            exact cacheInv_of_curpath st.curpath hinv.1 hinv.2 _ (by simp [select_part_snd])
      · rw [if_neg hEF]
        rw [if_neg (by decide : ¬((-1 : Int) = 0))]
        by_cases hr2 : (select_part o MCRD_SEL_DF (ptr off) st).1 = 0
        · rw [if_neg (not_not_intro hr2)]
          apply ih
          · exact cacheInv_of_curpath _ hfact1 hfact2 _ (by simp [select_part_snd])
          · left
            simp [select_part_snd]
        · rw [if_pos hr2]
          exact cacheInv_of_curpath st.curpath hinv.1 hinv.2 _ (by simp [select_part_snd])

theorem select_down_inv (o : Oracle) (fuel : Nat) (ptr : Nat → Nat) (off len : Nat)
    (dfo fci : Bool) (st : St) (hinv : cacheInv st)
    (hpre : st.curpath ≠ [] ∨ ptr off = MFID) :
    cacheInv (select_down o fuel ptr off len dfo fci st).2 := by
  unfold select_down
  by_cases hl : len = 0
  · rw [if_pos hl]; exact hinv
  · rw [if_neg hl]
    try dsimp only
    have hsd := sdLoop_inv o ptr dfo fci len off st hinv hpre
    by_cases h1 : (sdLoop o ptr dfo fci off len st).1 ≠ 0
    · rw [if_pos h1]; exact hsd
    · rw [if_neg h1]
      try dsimp only
      split
      · exact cacheInv_of_curpath _ hsd.1 hsd.2 _ rfl
      · exact cacheInv_of_curpath _ hsd.1 hsd.2 _ (by rw [load_special_files_curpath])

theorem forcedKind_mf (f : Nat) : forcedKind MCRD_SEL_MF f = MCRD_SEL_MF := by
  unfold forcedKind
  split <;> rfl

theorem relEnsure_spec (o : Oracle) (fid0 : Nat) (st : St) :
    ((relEnsure o fid0 st).1 ≠ 0 → (relEnsure o fid0 st).2.curpath = st.curpath) ∧
    ((relEnsure o fid0 st).1 = 0 → o.sel st.n MCRD_SEL_MF fid0 = 0 ∧
       (relEnsure o fid0 st).2.curpath = [fid0]) := by
  unfold relEnsure
  try dsimp only
  by_cases h : (select_part o MCRD_SEL_MF fid0 st).1 ≠ 0
  · rw [if_pos h]
    exact ⟨fun _ => by simp [select_part_curpath], fun h0 => absurd h0 h⟩
  · rw [if_neg h]
    refine ⟨fun h0 => absurd rfl h0, fun _ => ⟨?_, rfl⟩⟩
    have h1 := not_not.mp h
    rw [select_part_fst, forcedKind_mf] at h1
    exact h1

theorem relDescend_inv (o : Oracle) (fuel : Nat) (ptr : Nat → Nat) (len : Nat)
    (fci : Bool) (st : St) (hinv : cacheInv st) (hne : st.curpath ≠ []) :
    cacheInv (relDescend o fuel ptr len fci st).2 := by
  unfold relDescend
  split
  · split
    · exact hinv
    · next hgt =>
      apply select_down_inv
      · refine cacheInv_of_curpath st.curpath.dropLast ?_ ?_ _ rfl
        · right
          rw [dropLast_head? _ (by omega)]
          rcases hinv.1 with h | h
          · exact absurd h hne
          · exact h
        · have h2 := hinv.2
          have hdl := st.curpath.length_dropLast
          omega
      · left
        exact dropLast_ne_nil _ (by omega)
  · exact select_down_inv o fuel ptr 0 len false fci st hinv (Or.inl hne)

theorem by_fid_inv (o : Oracle) (fuel : Nat) (raw : List Nat) (junk : Nat)
    (fci : Bool) (st : St) (hmf : mfSelExact o) (hinv : cacheInv st) :
    cacheInv (select_file_by_fid o fuel raw junk fci st).2 := by
  unfold select_file_by_fid
  split
  · exact hinv
  · split
    · exact hinv
    · split
      · exact hinv
      · split
        · -- empty request
          split
          · exact hinv
          · split
            · exact hinv
            · split
              · exact hinv
              · next hgt =>
                apply select_down_inv
                · refine cacheInv_of_curpath st.curpath.dropLast ?_ ?_ _ rfl
                  · right
                    rw [dropLast_head? _ (by omega)]
                    rcases hinv.1 with h | h
                    · rw [h] at hgt; simp at hgt
                    · exact h
                  · have h2 := hinv.2
                    have hdl := st.curpath.length_dropLast
                    omega
                · left
                  exact dropLast_ne_nil _ (by omega)
        · split
          · -- MF requested
            try dsimp only
            split
            · exact cacheInv_of_curpath [] (Or.inl rfl)
                (by simp [MAX_CURPATH]) _ (by simp [select_part_curpath])
            · exact cacheInv_of_curpath [MFID] (Or.inr rfl)
                (by simp [MAX_CURPATH]) _ rfl
          · -- relative addressing
            next hlen1 h3fff hlen0 hnotmf =>
            split
            · next hempty =>
              try dsimp only
              split
              · next hfail =>
                refine cacheInv_of_curpath [] (Or.inl rfl) (by simp [MAX_CURPATH]) _ ?_
                rw [(relEnsure_spec o (raw.getD 0 junk) st).1 hfail]
                exact List.length_eq_zero.mp hempty
              · next hok =>
                exfalso
                have hk := (relEnsure_spec o (raw.getD 0 junk) st).2 (not_not.mp hok)
                have hmfid := hmf _ _ hk.1
                have hne : raw ≠ [] := by
                  intro hnil
                  rw [hnil] at hlen0
                  simp at hlen0
                cases raw with
                | nil => exact hne rfl
                | cons a t =>
                  apply hnotmf
                  simpa using hmfid
            · next hnempty =>
              apply relDescend_inv o fuel _ 1 fci st hinv
              intro hnil
              rw [hnil] at hnempty
              simp at hnempty

theorem by_path_inv (o : Oracle) (fuel : Nat) (p0 : List Nat) (fci : Bool)
    (st : St) (hmf : mfSelExact o) (hinv : cacheInv st) :
    cacheInv (select_file_by_path o fuel p0 fci st).2 := by
  unfold select_file_by_path
  split
  · exact hinv
  · try dsimp only
    generalize (if p0.head? = some 0x3FFF then p0.tail else p0) = q
    split
    · exact hinv
    · split
      · -- MF requested
        try dsimp only
        split
        · exact cacheInv_of_curpath [] (Or.inl rfl)
            (by simp [MAX_CURPATH]) _ (by simp [select_part_curpath])
        · exact cacheInv_of_curpath [MFID] (Or.inr rfl)
            (by simp [MAX_CURPATH]) _ rfl
      · split
        · -- absolute addressing
          next hlen hnot1 habs =>
          split
          · -- empty cache: full descent from the root
            apply select_down_inv
            · exact cacheInv_of_curpath [] (Or.inl rfl) (by simp [MAX_CURPATH]) _ rfl
            · right
              exact getD_zero_of_head? _ _ habs.2 0
          · split
            · -- strict ancestor: DF-only descent from the root
              apply select_down_inv
              · exact cacheInv_of_curpath [] (Or.inl rfl) (by simp [MAX_CURPATH]) _ rfl
              · right
                exact getD_zero_of_head? _ _ habs.2 0
            · split
              · -- exactly positioned
                split
                · exact hinv
                · split
                  · exact hinv
                  · next hgt =>
                    apply select_down_inv
                    · refine cacheInv_of_curpath st.curpath.dropLast ?_ ?_ _ rfl
                      · right
                        rw [dropLast_head? _ (by omega)]
                        rcases hinv.1 with h | h
                        · rw [h] at hgt; simp at hgt
                        · exact h
                      · have h2 := hinv.2
                        have hdl := st.curpath.length_dropLast
                        omega
                    · left
                      exact dropLast_ne_nil _ (by omega)
              · -- diverging or extending path: full descent from the root
                apply select_down_inv
                · exact cacheInv_of_curpath [] (Or.inl rfl) (by simp [MAX_CURPATH]) _ rfl
                · right
                  exact getD_zero_of_head? _ _ habs.2 0
        · -- relative addressing
          next hlen hnot1 hnotabs =>
          split
          · next hempty =>
            try dsimp only
            split
            · next hfail =>
              refine cacheInv_of_curpath [] (Or.inl rfl) (by simp [MAX_CURPATH]) _ ?_
              rw [(relEnsure_spec o _ st).1 hfail]
              exact List.length_eq_zero.mp hempty
            · next hok =>
              exfalso
              have hk := (relEnsure_spec o _ st).2 (not_not.mp hok)
              have hmfid := hmf _ _ hk.1
              cases hp : q with
              | nil =>
                rw [hp] at hlen
                simp at hlen
              | cons a t =>
                rw [hp] at hmfid
                simp at hmfid
                rcases Nat.lt_or_ge 1 (a :: t).length with hgt | hle
                · apply hnotabs
                  rw [hp]
                  exact ⟨hgt, by simp [hmfid]⟩
                · apply hnot1
                  rw [hp]
                  refine ⟨by simp only [List.length_cons] at hle ⊢; omega, by simp [hmfid]⟩
          · next hnempty =>
            apply relDescend_inv o fuel _ _ fci st hinv
            intro hnil
            rw [hnil] at hnempty
            simp at hnempty

theorem doReq_inv (o : Oracle) (fuel : Nat) (st : St) (r : Req)
    (hmf : mfSelExact o) (hinv : cacheInv st) :
    cacheInv (doReq o fuel st r).2 := by
  cases r with
  | byPath p fci => exact by_path_inv o fuel p fci st hmf hinv
  | byFid raw junk fci => exact by_fid_inv o fuel raw junk fci st hmf hinv
  | byName fci =>
    exact cacheInv_of_curpath [] (Or.inl rfl) (by simp [MAX_CURPATH]) _ rfl

theorem run_inv (o : Oracle) (fuel : Nat) (hmf : mfSelExact o) :
    ∀ (reqs : List Req) (st : St), cacheInv st → cacheInv (run o fuel reqs st) := by
  intro reqs
  induction reqs with
  | nil => intro st h; exact h
  | cons r rs ih =>
    intro st h
    exact ih _ (doReq_inv o fuel st r hmf h)

theorem initSt_inv (o : Oracle) (fuel : Nat) : cacheInv (initSt o fuel) := by
  refine cacheInv_of_curpath [MFID] (Or.inr rfl) (by simp [MAX_CURPATH]) _ ?_
  unfold initSt
  rw [load_special_files_curpath]

theorem depth_of_curpath (c : List Nat) (h : c.length ≤ MAX_CURPATH) (s : St)
    (hc : s.curpath = c) : s.curpath.length ≤ MAX_CURPATH := by
  rw [hc]
  exact h

theorem sdLoop_depth (o : Oracle) (ptr : Nat → Nat) (dfo fci : Bool) :
    ∀ len off (st : St), st.curpath.length ≤ MAX_CURPATH →
      (sdLoop o ptr dfo fci off len st).2.1.curpath.length ≤ MAX_CURPATH := by
  intro len
  induction len with
  | zero => intro off st h; exact h
  | succ m ih =>
    intro off st h
    rw [sdLoop]
    by_cases h10 : st.curpath.length = MAX_CURPATH
    · rw [if_pos h10]; exact h
    · rw [if_neg h10]
      try dsimp only
      have happ : (st.curpath ++ [ptr off]).length ≤ MAX_CURPATH := by
        simp only [List.length_append, List.length_cons, List.length_nil]
        omega
      by_cases hEF : m = 0 ∧ dfo = false
      · rw [if_pos hEF]
        by_cases hr1 : (select_part o MCRD_SEL_EF (ptr off) st).1 = 0
        · rw [if_pos hr1]
          exact depth_of_curpath _ happ _ (by simp [select_part_snd])
        · rw [if_neg hr1]
          by_cases hr2 : (select_part o MCRD_SEL_DF (ptr off)
              (select_part o MCRD_SEL_EF (ptr off) st).2).1 = 0
          · rw [if_neg (not_not_intro hr2)]
            apply ih
            exact depth_of_curpath _ happ _ (by simp [select_part_snd])
          · rw [if_pos hr2]
            exact depth_of_curpath st.curpath h _ (by simp [select_part_snd])
      · rw [if_neg hEF]
        rw [if_neg (by decide : ¬((-1 : Int) = 0))]
        by_cases hr2 : (select_part o MCRD_SEL_DF (ptr off) st).1 = 0
        · rw [if_neg (not_not_intro hr2)]
          apply ih
          exact depth_of_curpath _ happ _ (by simp [select_part_snd])
        · rw [if_pos hr2]
          exact depth_of_curpath st.curpath h _ (by simp [select_part_snd])

theorem select_down_depth (o : Oracle) (fuel : Nat) (ptr : Nat → Nat)
    (off len : Nat) (dfo fci : Bool) (st : St)
    (h : st.curpath.length ≤ MAX_CURPATH) :
    (select_down o fuel ptr off len dfo fci st).2.curpath.length ≤ MAX_CURPATH := by
  unfold select_down
  by_cases hl : len = 0
  · rw [if_pos hl]; exact h
  · rw [if_neg hl]
    try dsimp only
    have hsd := sdLoop_depth o ptr dfo fci len off st h
    by_cases h1 : (sdLoop o ptr dfo fci off len st).1 ≠ 0
    · rw [if_pos h1]; exact hsd
    · rw [if_neg h1]
      try dsimp only
      split
      · exact hsd
      · exact depth_of_curpath _ hsd _ (by rw [load_special_files_curpath])

theorem relDescend_depth (o : Oracle) (fuel : Nat) (ptr : Nat → Nat) (len : Nat)
    (fci : Bool) (st : St) (h : st.curpath.length ≤ MAX_CURPATH) :
    (relDescend o fuel ptr len fci st).2.curpath.length ≤ MAX_CURPATH := by
  unfold relDescend
  split
  · split
    · exact h
    · apply select_down_depth
      refine depth_of_curpath st.curpath.dropLast ?_ _ rfl
      have hdl := st.curpath.length_dropLast
      omega
  · exact select_down_depth o fuel ptr 0 len false fci st h

theorem by_fid_depth (o : Oracle) (fuel : Nat) (raw : List Nat) (junk : Nat)
    (fci : Bool) (st : St) (h : st.curpath.length ≤ MAX_CURPATH) :
    (select_file_by_fid o fuel raw junk fci st).2.curpath.length ≤ MAX_CURPATH := by
  unfold select_file_by_fid
  split
  · exact h
  · split
    · exact h
    · split
      · exact h
      · split
        · split
          · exact h
          · split
            · exact h
            · split
              · exact h
              · apply select_down_depth
                refine depth_of_curpath st.curpath.dropLast ?_ _ rfl
                have hdl := st.curpath.length_dropLast
                omega
        · split
          · try dsimp only
            split
            · exact depth_of_curpath [] (by simp [MAX_CURPATH]) _
                (by simp [select_part_curpath])
            · exact depth_of_curpath [MFID] (by simp [MAX_CURPATH]) _ rfl
          · split
            · try dsimp only
              split
              · next hfail =>
                exact depth_of_curpath st.curpath h _
                  ((relEnsure_spec o _ st).1 hfail)
              · next hok =>
                apply relDescend_depth
                exact depth_of_curpath [raw.getD 0 junk] (by simp [MAX_CURPATH]) _
                  ((relEnsure_spec o _ st).2 (not_not.mp hok)).2
            · exact relDescend_depth o fuel _ 1 fci st h

theorem by_path_depth (o : Oracle) (fuel : Nat) (p0 : List Nat) (fci : Bool)
    (st : St) (h : st.curpath.length ≤ MAX_CURPATH) :
    (select_file_by_path o fuel p0 fci st).2.curpath.length ≤ MAX_CURPATH := by
  unfold select_file_by_path
  split
  · exact h
  · try dsimp only
    generalize (if p0.head? = some 0x3FFF then p0.tail else p0) = q
    split
    · exact h
    · split
      · try dsimp only
        split
        · exact depth_of_curpath [] (by simp [MAX_CURPATH]) _
            (by simp [select_part_curpath])
        · exact depth_of_curpath [MFID] (by simp [MAX_CURPATH]) _ rfl
      · split
        · split
          · exact select_down_depth o fuel _ 0 q.length false fci _
              (depth_of_curpath [] (by simp [MAX_CURPATH]) _ rfl)
          · split
            · exact select_down_depth o fuel _ 0 q.length true fci _
                (depth_of_curpath [] (by simp [MAX_CURPATH]) _ rfl)
            · split
              · split
                · exact h
                · split
                  · exact h
                  · apply select_down_depth
                    refine depth_of_curpath st.curpath.dropLast ?_ _ rfl
                    have hdl := st.curpath.length_dropLast
                    omega
              · exact select_down_depth o fuel _ 0 q.length false fci _
                  (depth_of_curpath [] (by simp [MAX_CURPATH]) _ rfl)
        · split
          · try dsimp only
            split
            · next hfail =>
              exact depth_of_curpath st.curpath h _
                ((relEnsure_spec o _ st).1 hfail)
            · next hok =>
              apply relDescend_depth
              exact depth_of_curpath [q.getD 0 0] (by simp [MAX_CURPATH]) _
                ((relEnsure_spec o _ st).2 (not_not.mp hok)).2
          · exact relDescend_depth o fuel _ q.length fci st h

theorem doReq_depth (o : Oracle) (fuel : Nat) (st : St) (r : Req)
    (h : st.curpath.length ≤ MAX_CURPATH) :
    (doReq o fuel st r).2.curpath.length ≤ MAX_CURPATH := by
  cases r with
  | byPath p fci => exact by_path_depth o fuel p fci st h
  | byFid raw junk fci => exact by_fid_depth o fuel raw junk fci st h
  | byName fci => exact depth_of_curpath [] (by simp [MAX_CURPATH]) _ rfl

theorem run_depth (o : Oracle) (fuel : Nat) :
    ∀ (reqs : List Req) (st : St), st.curpath.length ≤ MAX_CURPATH →
      (run o fuel reqs st).curpath.length ≤ MAX_CURPATH := by
  intro reqs
  induction reqs with
  | nil => intro st h; exact h
  | cons r rs ih =>
    intro st h
    exact ih _ (doReq_depth o fuel st r h)

theorem initSt_depth (o : Oracle) (fuel : Nat) :
    (initSt o fuel).curpath.length ≤ MAX_CURPATH := by
  refine depth_of_curpath [MFID] (by simp [MAX_CURPATH]) _ ?_
  unfold initSt
  rw [load_special_files_curpath]

/-- C4 (amended): over every session of select requests started by
`mcrd_init`, the depth half of the invariant holds unconditionally, for
every transport and every request sequence: the cache never exceeds 10
entries (first conjunct, no hypothesis on the oracle), and an attempted
eleventh append aborts the descent with the internal error before sending
anything, never a silent truncation (second conjunct).  The root-first half
(a nonempty cache starts with 0x3F00) holds under the transport assumption
`mfSelExact` that a master-file-kind select succeeds only for the root
identifier (third conjunct): both relative-addressing branches seed
`curpath[0]` from the request on a successful MF-kind select, so a
transport accepting such a select for a non-root identifier plants that
identifier at the cache root (see the counterexample). -/
theorem cache_invariant_amended :
    (∀ (o : Oracle) (fuel : Nat) (reqs : List Req),
       (run o fuel reqs (initSt o fuel)).curpath.length ≤ MAX_CURPATH) ∧
    (∀ (o : Oracle) (ptr : Nat → Nat) (dfo fci : Bool) (off len : Nat) (st : St),
       st.curpath.length = MAX_CURPATH → 0 < len →
       sdLoop o ptr dfo fci off len st = (SC_ERROR_INTERNAL, st, false)) ∧
    (∀ (o : Oracle) (fuel : Nat) (reqs : List Req),
       mfSelExact o → cacheInv (run o fuel reqs (initSt o fuel))) := by
  refine ⟨?_, ?_, ?_⟩
  · intro o fuel reqs
    exact run_depth o fuel reqs _ (initSt_depth o fuel)
  · intro o ptr dfo fci off len st hful hpos
    cases len with
    | zero => omega
    | succ m =>
      rw [sdLoop]
      rw [if_pos hful]
  · intro o fuel reqs hmf
    exact run_inv o fuel hmf reqs _ (initSt_inv o fuel)

/-- C4 counterexample.  Starting from `mcrd_init`, a transport that rejects
the first two commands and accepts the rest drives the claimed invariant
false in two requests: the root request clears the cache and its MF select
fails, leaving the cache empty; the following relative request for `0x4101`
then succeeds its MF-kind select, seeding the cache with `0x4101` — the
cache ends nonempty with a first element that is not the root identifier
(the next handler call's entry assert would abort on it). -/
theorem cache_root_invariant_cex :
    ((run { sel := fun n _ _ => if n = 0 ∨ n = 1 then -1205 else 0,
            readR := fun _ _ => ⟨0, 0x6A, 0x83, []⟩ } 1
        [Req.byPath [0x3F00] false, Req.byFid [0x4101] 0 false]
        (initSt { sel := fun n _ _ => if n = 0 ∨ n = 1 then -1205 else 0,
                  readR := fun _ _ => ⟨0, 0x6A, 0x83, []⟩ } 1)).curpath ≠ []) ∧
    ¬((run { sel := fun n _ _ => if n = 0 ∨ n = 1 then -1205 else 0,
             readR := fun _ _ => ⟨0, 0x6A, 0x83, []⟩ } 1
        [Req.byPath [0x3F00] false, Req.byFid [0x4101] 0 false]
        (initSt { sel := fun n _ _ => if n = 0 ∨ n = 1 then -1205 else 0,
                  readR := fun _ _ => ⟨0, 0x6A, 0x83, []⟩ } 1)).curpath.head?
      = some MFID) := by
  refine ⟨by decide, by decide⟩

/-- C4 witness: the depth conjunct at a transport that accepts every
select (one that violates `mfSelExact`, since the bound needs no transport
assumption), the eleventh-append conjunct at a full 10-entry cache, and the
root-first conjunct at a transport that accepts MF-kind selects only for
the root. -/
theorem cache_invariant_amended_witness :
    ((run { sel := fun _ _ _ => 0, readR := fun _ _ => ⟨0, 0x6A, 0x83, []⟩ } 1
        [Req.byFid [0x4101] 0 true]
        (initSt { sel := fun _ _ _ => 0,
                  readR := fun _ _ => ⟨0, 0x6A, 0x83, []⟩ } 1)).curpath.length
      ≤ MAX_CURPATH) ∧
    sdLoop
      { sel := fun _ k f => if k = 0 ∧ ¬(f = 0x3F00) then -1205 else 0,
        readR := fun _ _ => ⟨0, 0x6A, 0x83, []⟩ }
      (fun _ => 0x4100) false false 0 1
      { curpath := [0x3F00, 1, 2, 3, 4, 5, 6, 7, 8, 9], is_ef := false,
        dfis := [], n := 0, trace := [] }
      = (SC_ERROR_INTERNAL,
         { curpath := [0x3F00, 1, 2, 3, 4, 5, 6, 7, 8, 9], is_ef := false,
           dfis := [], n := 0, trace := [] }, false) ∧
    cacheInv (run
      { sel := fun _ k f => if k = 0 ∧ ¬(f = 0x3F00) then -1205 else 0,
        readR := fun _ _ => ⟨0, 0x6A, 0x83, []⟩ } 1
      [Req.byPath [0x3F00, 0x4100] false]
      (initSt
        { sel := fun _ k f => if k = 0 ∧ ¬(f = 0x3F00) then -1205 else 0,
          readR := fun _ _ => ⟨0, 0x6A, 0x83, []⟩ } 1)) := by
  refine ⟨?_, ?_, ?_⟩
  · exact cache_invariant_amended.1 _ 1 _
  · exact cache_invariant_amended.2.1 _ (fun _ => 0x4100) false false 0 1
      { curpath := [0x3F00, 1, 2, 3, 4, 5, 6, 7, 8, 9], is_ef := false,
        dfis := [], n := 0, trace := [] } (by decide) (by decide)
  · apply cache_invariant_amended.2.2
    intro n f h
    by_cases hf : f = 0x3F00
    · exact hf
    · simp [MCRD_SEL_MF, hf] at h
